import Mathlib

/-!
Alert state history query handler

A shallow embedding of the alerting historian app's query handler
(`pkg/registry/apps/alerting/historian/handlers.go`) together with the request
body type it consumes
(`apps/alerting/historian/pkg/apis/alertinghistorian/v0alpha1`).

Go values are embedded as follows.

* `int64` values are integers (`Int`); Go arithmetic on them wraps, which is
  made explicit with `wrapInt64`.
* A nilable pointer `*T` is an `Option T` (`none` is the nil pointer).
* A slice is an `Option (List T)` (`none` is the nil slice, `some []` an empty
  slice that is not nil).
* A `map[string]string` is an `Option` of a finite map (`none` is the nil map).
* A function returning `(T, error)` returns a pair whose second component is an
  `Option` (`none` is the nil error); a run-time panic is the outer `none`.
-/

set_option linter.dupNamespace false

namespace historian

/-! ## Machine integers -/

/-- Two's complement wrap-around of an integer into the `int64` range. -/
def wrapInt64 (x : Int) : Int :=
  (x + 2 ^ 63) % 2 ^ 64 - 2 ^ 63

/-- Range of the Go type `int64`. -/
def isInt64 (x : Int) : Prop :=
  -(2 ^ 63) ≤ x ∧ x < 2 ^ 63

instance (x : Int) : Decidable (isInt64 x) := by
  unfold isInt64; exact inferInstance

/-- Go conversion `int(x)` of an `int64` value, for the 64 bit wide `int` of
the platforms the server is built for. -/
def intOfInt64 (x : Int) : Int :=
  wrapInt64 x

/-! ## Timestamps (Go package `time`) -/

namespace time

/-- Modelled from the spec: the location pointer of the query's native time
representation (Go `time.Time`, standard library, not part of the repository).
`utc` is the nil pointer, `localLoc` the pointer to the local zone. -/
inductive Location where
  | utc
  | localLoc
  deriving DecidableEq, Repr

/-- Modelled from the spec: the query's native time representation (Go
`time.Time`, standard library, not part of the repository). `sec` is the number
of seconds since January 1 of year 1 (the value of Go's `t.sec()`), `nsec` the
nanoseconds within that second (`t.nsec()`); a monotonic clock reading is not
represented, no function used by the handler reads it. -/
structure Time where
  sec : Int
  nsec : Nat
  loc : Location
  deriving DecidableEq, Repr

/-- Seconds from January 1 of year 1 to January 1 of 1970 (Go
`unixToInternal`). -/
def unixToInternal : Int :=
  (1969 * 365 + 1969 / 4 - 1969 / 100 + 1969 / 400) * 86400

/-- Go `internalToUnix`. -/
def internalToUnix : Int :=
  -unixToInternal

/-- The zero value of `time.Time`: January 1, year 1, 00:00:00 UTC. -/
def zero : Time :=
  { sec := 0, nsec := 0, loc := Location.utc }

/-- Modelled from the spec: conversion of epoch seconds to the query's native
time representation, Go `time.Unix(sec, nsec)` (standard library). A nanosecond
argument outside `[0, 1e9)` is first carried into the seconds. -/
def Unix (sec nsec : Int) : Time :=
  let carried : Int × Int :=
    if nsec < 0 ∨ nsec ≥ 1000000000 then
      let n := Int.tdiv nsec 1000000000
      let sec1 := wrapInt64 (sec + n)
      let nsec1 := wrapInt64 (nsec - wrapInt64 (n * 1000000000))
      if nsec1 < 0 then (wrapInt64 (sec1 - 1), wrapInt64 (nsec1 + 1000000000))
      else (sec1, nsec1)
    else (sec, nsec)
  { sec := wrapInt64 (carried.1 + unixToInternal), nsec := carried.2.toNat,
    loc := Location.localLoc }

/-- Go `t.Unix()`: seconds since January 1, 1970 UTC. -/
def Time.Unix (t : Time) : Int :=
  wrapInt64 (t.sec + internalToUnix)

/-- Go `t.Nanosecond()`: the nanosecond offset within the second. -/
def Time.Nanosecond (t : Time) : Int :=
  (t.nsec : Int)

/-- Modelled from the spec: `timeCell.UnixNanoseconds()`, Go `t.UnixNano()`
(standard library): nanoseconds since January 1, 1970 UTC as an `int64`; the
multiplication and the addition wrap. -/
def Time.UnixNano (t : Time) : Int :=
  wrapInt64 (wrapInt64 (wrapInt64 (t.sec + internalToUnix) * 1000000000) + (t.nsec : Int))

/-- Go `t.Equal(u)`: the two values denote the same instant. -/
def Time.Equal (t u : Time) : Bool :=
  decide (t.sec = u.sec) && decide (t.nsec = u.nsec)

end time

/-! ## Caller identity and request context -/

/-- Modelled from the spec: the caller identity (`identity.Requester`, in the
tests an `identity.StaticRequester`); the package is not under `src/`. Only the
organization id is read by the handler. -/
structure Requester where
  OrgID : Int
  UserID : Int
  Login : String
  deriving DecidableEq, Repr

/-- Method `GetOrgID` of the caller identity. -/
def Requester.GetOrgID (user : Requester) : Int :=
  user.OrgID

/-- The part of a `context.Context` the handler reads: the caller identity
attached with `identity.WithRequester`, if any. -/
structure Context where
  requester : Option Requester
  deriving DecidableEq, Repr

/-- Modelled from the spec: `identity.GetRequester` (not under `src/`), which
fails exactly when no identity is attached to the context. -/
def GetRequester (ctx : Context) : Except String Requester :=
  match ctx.requester with
  | some user => Except.ok user
  | none => Except.error "a Requester was not found in the context"

/-! ## Request body (`createalertstatequery_request_body_types_gen.go`) -/

/-- Go `type CreateAlertstatequeryRequestState string`. -/
structure CreateAlertstatequeryRequestState where
  val : String
  deriving DecidableEq, Repr

/-- Constant `CreateAlertstatequeryRequestStateNormal`. -/
def CreateAlertstatequeryRequestStateNormal : CreateAlertstatequeryRequestState := ⟨"normal"⟩

/-- Constant `CreateAlertstatequeryRequestStateAlerting`. -/
def CreateAlertstatequeryRequestStateAlerting : CreateAlertstatequeryRequestState := ⟨"alerting"⟩

/-- Constant `CreateAlertstatequeryRequestStatePending`. -/
def CreateAlertstatequeryRequestStatePending : CreateAlertstatequeryRequestState := ⟨"pending"⟩

/-- Constant `CreateAlertstatequeryRequestStateNoData`. -/
def CreateAlertstatequeryRequestStateNoData : CreateAlertstatequeryRequestState := ⟨"nodata"⟩

/-- Constant `CreateAlertstatequeryRequestStateError`. -/
def CreateAlertstatequeryRequestStateError : CreateAlertstatequeryRequestState := ⟨"error"⟩

/-- Constant `CreateAlertstatequeryRequestStateRecovering`. -/
def CreateAlertstatequeryRequestStateRecovering : CreateAlertstatequeryRequestState := ⟨"recovering"⟩

/-- Go `map[string]string`; `none` is the nil map. -/
abbrev StringMap := Option (Finmap (fun _ : String => String))

/-- Value stored under a key (`m[k]` with the comma-ok form); the nil map has
no keys. -/
def StringMap.lookup (m : StringMap) (k : String) : Option String :=
  match m with
  | none => none
  | some fm => fm.lookup k

/-- Go `len(m)`: the number of key/value pairs; 0 for the nil map. -/
def StringMap.len (m : StringMap) : Nat :=
  match m with
  | none => 0
  | some fm => fm.keys.card

/-- Go `type CreateAlertstatequeryRequestBody struct`; the pointer fields are
options. -/
structure CreateAlertstatequeryRequestBody where
  From : Option Int
  To : Option Int
  Limit : Option Int
  RuleUID : Option String
  DashboardUID : Option String
  PanelID : Option Int
  Previous : Option CreateAlertstatequeryRequestState
  Current : Option CreateAlertstatequeryRequestState
  Labels : StringMap

/-- Go `NewCreateAlertstatequeryRequestBody`: the body with every field
unset. -/
def NewCreateAlertstatequeryRequestBody : CreateAlertstatequeryRequestBody :=
  { From := none, To := none, Limit := none, RuleUID := none, DashboardUID := none,
    PanelID := none, Previous := none, Current := none, Labels := none }

/-- All integer fields that are present hold `int64` values. -/
def CreateAlertstatequeryRequestBody.WellTyped (req : CreateAlertstatequeryRequestBody) : Prop :=
  (∀ v, req.From = some v → isInt64 v) ∧ (∀ v, req.To = some v → isInt64 v) ∧
  (∀ v, req.Limit = some v → isInt64 v) ∧ (∀ v, req.PanelID = some v → isInt64 v)

/-! ## History query (`models.HistoryQuery`) -/

/-- Modelled from the spec: the `HistoryQuery` value handed to the engine
(`models.HistoryQuery`, package `ngalert/models`, not under `src/`): tenant
identifier, caller identity and the filter dimensions with defaulted values.
`SignedInUser` is an interface value, `none` is nil. -/
structure HistoryQuery where
  RuleUID : String
  OrgID : Int
  DashboardUID : String
  PanelID : Int
  Labels : StringMap
  From : time.Time
  To : time.Time
  Limit : Int
  Previous : String
  Current : String
  SignedInUser : Option Requester

/-! ## Tabular result (`data.Frame`) -/

/-- Modelled from the spec: a dynamically typed cell value of the tabular
result, the `interface` value returned by `frame.At` (package `data` of the
plugin SDK, not under `src/`). The constructors are the element types of a
frame column that the handler and its tests meet; `float64` carries the bit
pattern of the number, the pointer types are the nullable columns. -/
inductive Cell where
  | time (t : time.Time)
  | string (s : String)
  | float64 (bits : Nat)
  | int64 (v : Int)
  | bool (b : Bool)
  | timePtr (t : Option time.Time)
  | stringPtr (s : Option String)
  deriving DecidableEq, Repr

/-- Go type assertion `c.(time.Time)` in its comma-ok form. -/
def Cell.asTime : Cell → Option time.Time
  | Cell.time t => some t
  | _ => none

/-- Go type assertion `c.(string)` in its comma-ok form. -/
def Cell.asString : Cell → Option String
  | Cell.string s => some s
  | _ => none

/-- Modelled from the spec: a named column of the tabular result
(`data.Field`). The cells are kept as a list of dynamically typed values, which
also covers columns whose cells do not all have one type. -/
structure Field where
  Name : String
  cells : List Cell
  deriving DecidableEq, Repr

/-- Go `field.Len()`. -/
def Field.Len (field : Field) : Nat :=
  field.cells.length

/-- Modelled from the spec: the tabular result (`data.Frame`): an ordered
sequence of named columns. -/
structure Frame where
  Name : String
  Fields : List Field
  deriving DecidableEq, Repr

/-- Modelled from the spec: the row count of the tabular result, Go
`frame.Rows()`: the length of the first column, 0 for a frame without
columns. -/
def Frame.Rows (frame : Frame) : Int :=
  match frame.Fields with
  | [] => 0
  | field :: _ => (field.Len : Int)

/-- Search of `FieldByName` through the columns from position `i` on. -/
def fieldByNameFrom (fieldName : String) : List Field → Nat → Option Field × Int
  | [], _ => (none, -1)
  | field :: rest, i =>
    if field.Name = fieldName then (some field, (i : Int))
    else fieldByNameFrom fieldName rest (i + 1)

/-- Modelled from the spec: locate a column by name, Go
`frame.FieldByName(name)`: the first column with that name and its index, or
nil and -1 when there is none. -/
def Frame.FieldByName (frame : Frame) (fieldName : String) : Option Field × Int :=
  fieldByNameFrom fieldName frame.Fields 0

/-- Modelled from the spec: read the cell addressed by `(columnIndex, row)`, Go
`frame.At(fieldIdx, rowIdx)`. An index outside the columns, or outside the
cells of the column, is a run-time panic (`none`). -/
def Frame.At (frame : Frame) (fieldIdx : Int) (rowIdx : Int) : Option Cell :=
  if fieldIdx < 0 ∨ rowIdx < 0 then none
  else
    match frame.Fields.get? fieldIdx.toNat with
    | none => none
    | some field => field.cells.get? rowIdx.toNat

/-! ## Response (`v0alpha1.CreateAlertstatequery`) and status errors -/

/-- Modelled from the spec: `AlertStateLogEntry` (`v0alpha1.AlertStateEntry`,
generated file not under `src/`): nanoseconds since the epoch and the log
line. -/
structure AlertStateEntry where
  Timestamp : Int
  Line : String
  deriving DecidableEq, Repr

/-- Modelled from the spec: `QueryResponse` (`v0alpha1.CreateAlertstatequery`,
generated file not under `src/`): the sequence of entries, a Go slice (`none`
is the nil slice of the zero value). -/
structure CreateAlertstatequery where
  Entries : Option (List AlertStateEntry)
  deriving DecidableEq, Repr

/-- Go `len(s)` of a slice. -/
def sliceLen {α : Type} (s : Option (List α)) : Nat :=
  match s with
  | none => 0
  | some l => l.length

/-- Go `append(s, x)`. -/
def sliceAppend {α : Type} (s : Option (List α)) (x : α) : Option (List α) :=
  match s with
  | none => some [x]
  | some l => some (l ++ [x])

/-- Element `s[i]` of a slice, `none` when `i` is out of range. -/
def sliceGet {α : Type} (s : Option (List α)) (i : Nat) : Option α :=
  match s with
  | none => none
  | some l => l.get? i

/-- Kubernetes `metav1.Status`, the fields the handler sets. -/
structure Status where
  Status : String
  Code : Int
  Message : String
  deriving DecidableEq, Repr

/-- Kubernetes `apierrors.StatusError`. -/
structure StatusError where
  ErrStatus : Status
  deriving DecidableEq, Repr

/-- Constant `metav1.StatusFailure`. -/
def StatusFailure : String := "Failure"

/-- Constant `http.StatusBadRequest`. -/
def StatusBadRequest : Int := 400

/-- Constant `http.StatusUnauthorized`. -/
def StatusUnauthorized : Int := 401

/-- Constant `http.StatusInternalServerError`. -/
def StatusInternalServerError : Int := 500

/-! ## The handler (`handlers.go`) -/

/-- Go `type Historian interface`: the engine. `Query` returns the pair
`(*data.Frame, error)`: the frame pointer (`none` is nil) and the error, kept by
its text (`none` is nil). -/
structure Historian where
  Query : Context → HistoryQuery → Option Frame × Option String

/-- Go `type handlers struct`. -/
structure handlers where
  historian : Historian

/-- What a Go function with results `(T, error)` does: `none` is a run-time
panic, otherwise the pair of results (`none` as the second one is the nil
error). -/
abbrev Outcome (α : Type) := Option (α × Option StatusError)

/-- One execution of the handler: the queries handed to the engine, in call
order, and what the handler returned. -/
structure Run where
  calls : List HistoryQuery
  result : Outcome CreateAlertstatequery

/-- Lines 37 to 66 of `handlers.go`: the query built from the caller identity
and the request body. -/
def buildQuery (user : Requester) (req : CreateAlertstatequeryRequestBody) : HistoryQuery :=
  let query : HistoryQuery :=
    { RuleUID := "", OrgID := user.GetOrgID, DashboardUID := "", PanelID := 0,
      Labels := none, From := time.zero, To := time.zero, Limit := 0,
      Previous := "", Current := "", SignedInUser := some user }
  let query := match req.RuleUID with
    | some v => { query with RuleUID := v }
    | none => query
  let query := match req.DashboardUID with
    | some v => { query with DashboardUID := v }
    | none => query
  let query := match req.PanelID with
    | some v => { query with PanelID := v }
    | none => query
  let query := match req.Previous with
    | some v => { query with Previous := v.val }
    | none => query
  let query := match req.Current with
    | some v => { query with Current := v.val }
    | none => query
  let query := match req.From with
    | some v => { query with From := time.Unix v 0 }
    | none => query
  let query := match req.To with
    | some v => { query with To := time.Unix v 0 }
    | none => query
  let query := match req.Limit with
    | some v => { query with Limit := intOfInt64 v }
    | none => query
  { query with Labels := req.Labels }

/-- The status error the handler builds at each of its failure points. -/
def statusError (code : Int) (message : String) : StatusError :=
  { ErrStatus := { Status := StatusFailure, Code := code, Message := message } }

/-- Lines 108 to 135 of `handlers.go`: the loop
`for row := 0; row < frame.Rows(); row++`, entered at `row` with `remaining`
iterations left (`frame.Rows() - row`) and the entries appended so far in
`result`. -/
def projectRows (frame : Frame) (timeIdx lineIdx : Int) :
    Nat → Int → CreateAlertstatequery → Outcome CreateAlertstatequery
  | 0, _, result => some (result, none)
  | remaining + 1, row, result =>
    match frame.At timeIdx row with
    | none => none
    | some timeCell =>
      match timeCell.asTime with
      | none =>
        some ({ Entries := none },
          some (statusError StatusInternalServerError
            "log Time field not a time.Time in historian query response"))
      | some timestamp =>
        match frame.At lineIdx row with
        | none => none
        | some lineCell =>
          match lineCell.asString with
          | none =>
            some ({ Entries := none },
              some (statusError StatusInternalServerError
                "log Line field not a string in historian query response"))
          | some line =>
            let entry : AlertStateEntry := { Timestamp := timestamp.UnixNano, Line := line }
            projectRows frame timeIdx lineIdx remaining (row + 1)
              { result with Entries := sliceAppend result.Entries entry }

/-- Lines 79 to 135 of `handlers.go`: the projection of the frame returned by
the engine into the response. -/
def project (frame : Frame) : Outcome CreateAlertstatequery :=
  let result : CreateAlertstatequery := { Entries := some [] }
  if frame.Rows ≤ 0 then some (result, none)
  else
    let lineIdx := (frame.FieldByName "Line").2
    if lineIdx < 0 then
      some ({ Entries := none },
        some (statusError StatusInternalServerError
          "no Line field found in historian query response"))
    else
      let timeIdx := (frame.FieldByName "Time").2
      if timeIdx < 0 then
        some ({ Entries := none },
          some (statusError StatusInternalServerError
            "no Time field found in historian query response"))
      else
        projectRows frame timeIdx lineIdx frame.Rows.toNat 0 result

/-- Go `func (h *handlers) AlertStateQueryHandler(ctx, req)`. When the engine
returns a nil frame together with a nil error, `frame.Rows()` on line 80
dereferences the nil pointer: a run-time panic. -/
def handlers.AlertStateQueryHandler (h : handlers) (ctx : Context)
    (req : CreateAlertstatequeryRequestBody) : Run :=
  match GetRequester ctx with
  | Except.error _ =>
    { calls := [],
      result := some ({ Entries := none },
        some (statusError StatusUnauthorized "authentication required")) }
  | Except.ok user =>
    let query := buildQuery user req
    match h.historian.Query ctx query with
    | (_, some err) =>
      { calls := [query],
        result := some ({ Entries := none },
          some (statusError StatusInternalServerError err)) }
    | (none, none) =>
      { calls := [query], result := none }
    | (some frame, none) =>
      { calls := [query], result := project frame }

/-! ## Inputs of the test suite (`handlers_test.go`) -/

/-- Go `mockHistorian` whose `queryFunc` returns the given frame. -/
def mockHistorian (frame : Frame) : Historian :=
  { Query := fun _ _ => (some frame, none) }

/-- Go `mockHistorian` whose `queryFunc` fails with the given error text. -/
def failingHistorian (err : String) : Historian :=
  { Query := fun _ _ => (none, some err) }

/-- Context built with `identity.WithRequester` around a static requester with
the given organization id. -/
def contextWithOrg (orgID : Int) : Context :=
  { requester := some { OrgID := orgID, UserID := 0, Login := "" } }

/-- The instant `now` of the tests, fixed to a concrete value. -/
def testNow : time.Time :=
  time.Unix 1700000000 0

/-- The instant `now.Add(time.Second)`. -/
def testNowPlusSecond : time.Time :=
  time.Unix 1700000001 0

/-- Frame `testFrame` of "returns entries when query succeeds". -/
def testFrame : Frame :=
  { Name := "test",
    Fields := [
      { Name := "Time", cells := [Cell.time testNow, Cell.time testNowPlusSecond] },
      { Name := "Line", cells := [Cell.string "alert fired", Cell.string "alert resolved"] }] }

/-- Frame `emptyFrame` of "returns empty result when frame has no rows". -/
def emptyFrame : Frame :=
  { Name := "empty", Fields := [] }

/-- Frame `frameWithoutLine` of "returns error when Line field is missing". -/
def frameWithoutLine : Frame :=
  { Name := "test", Fields := [{ Name := "Time", cells := [Cell.time testNow] }] }

/-- Frame `frameWithoutTime` of "returns error when Time field is missing". -/
def frameWithoutTime : Frame :=
  { Name := "test", Fields := [{ Name := "Line", cells := [Cell.string "test"] }] }

/-- Frame `frameWithWrongTimeType` of "returns error when Time field has wrong
type". -/
def frameWithWrongTimeType : Frame :=
  { Name := "test",
    Fields := [
      { Name := "Time", cells := [Cell.string "not a time"] },
      { Name := "Line", cells := [Cell.string "test"] }] }

/-- Frame `frameWithWrongLineType` of "returns error when Line field has wrong
type"; the cell holds the bit pattern of 123.45. -/
def frameWithWrongLineType : Frame :=
  { Name := "test",
    Fields := [
      { Name := "Time", cells := [Cell.time testNow] },
      { Name := "Line", cells := [Cell.float64 0x405EDCCCCCCCCCCD] }] }

/-- Request of "passes all request parameters to historian query". -/
def fullRequest : CreateAlertstatequeryRequestBody :=
  { From := some 1000, To := some 2000, Limit := some 50, RuleUID := some "rule-123",
    DashboardUID := some "dash-456", PanelID := some 7,
    Previous := some CreateAlertstatequeryRequestStatePending,
    Current := some CreateAlertstatequeryRequestStateAlerting,
    Labels := some (Finmap.singleton "env" "prod") }

/-! ## The handler with its cell reads recorded -/

/-- What one projection did: the arguments `(fieldIdx, rowIdx)` of every call of
`frame.At`, in call order, the number of loop iterations entered, and what the
projection returned. -/
structure ProjectionTrace where
  reads : List (Int × Int)
  iterations : Nat
  result : Outcome CreateAlertstatequery

/-- The loop of lines 108 to 135 of `handlers.go` as in `projectRows`, with
every call of `frame.At` and every iteration recorded. -/
def projectRowsTraced (frame : Frame) (timeIdx lineIdx : Int) :
    Nat → Int → CreateAlertstatequery → ProjectionTrace
  | 0, _, result => { reads := [], iterations := 0, result := some (result, none) }
  | remaining + 1, row, result =>
    match frame.At timeIdx row with
    | none => { reads := [(timeIdx, row)], iterations := 1, result := none }
    | some timeCell =>
      match timeCell.asTime with
      | none =>
        { reads := [(timeIdx, row)], iterations := 1,
          result := some ({ Entries := none },
            some (statusError StatusInternalServerError
              "log Time field not a time.Time in historian query response")) }
      | some timestamp =>
        match frame.At lineIdx row with
        | none => { reads := [(timeIdx, row), (lineIdx, row)], iterations := 1, result := none }
        | some lineCell =>
          match lineCell.asString with
          | none =>
            { reads := [(timeIdx, row), (lineIdx, row)], iterations := 1,
              result := some ({ Entries := none },
                some (statusError StatusInternalServerError
                  "log Line field not a string in historian query response")) }
          | some line =>
            let entry : AlertStateEntry := { Timestamp := timestamp.UnixNano, Line := line }
            let rest := projectRowsTraced frame timeIdx lineIdx remaining (row + 1)
              { result with Entries := sliceAppend result.Entries entry }
            { reads := (timeIdx, row) :: (lineIdx, row) :: rest.reads,
              iterations := rest.iterations + 1, result := rest.result }

/-- Lines 79 to 135 of `handlers.go` as in `project`, with the cell reads and
the loop iterations recorded. -/
def projectTraced (frame : Frame) : ProjectionTrace :=
  let result : CreateAlertstatequery := { Entries := some [] }
  if frame.Rows ≤ 0 then { reads := [], iterations := 0, result := some (result, none) }
  else
    let lineIdx := (frame.FieldByName "Line").2
    if lineIdx < 0 then
      { reads := [], iterations := 0,
        result := some ({ Entries := none },
          some (statusError StatusInternalServerError
            "no Line field found in historian query response")) }
    else
      let timeIdx := (frame.FieldByName "Time").2
      if timeIdx < 0 then
        { reads := [], iterations := 0,
          result := some ({ Entries := none },
            some (statusError StatusInternalServerError
              "no Time field found in historian query response")) }
      else
        projectRowsTraced frame timeIdx lineIdx frame.Rows.toNat 0 result

/-- One execution of the handler with everything it did recorded: the queries
handed to the engine, the projection it ran on the returned frame (`none` when
no frame was projected), and what it returned. -/
structure TracedRun where
  calls : List HistoryQuery
  projection : Option ProjectionTrace
  result : Outcome CreateAlertstatequery

/-- Go `func (h *handlers) AlertStateQueryHandler(ctx, req)` as in
`handlers.AlertStateQueryHandler`, with the engine calls and the projection
recorded. -/
def handlers.AlertStateQueryHandlerTraced (h : handlers) (ctx : Context)
    (req : CreateAlertstatequeryRequestBody) : TracedRun :=
  match GetRequester ctx with
  | Except.error _ =>
    { calls := [], projection := none,
      result := some ({ Entries := none },
        some (statusError StatusUnauthorized "authentication required")) }
  | Except.ok user =>
    let query := buildQuery user req
    match h.historian.Query ctx query with
    | (_, some err) =>
      { calls := [query], projection := none,
        result := some ({ Entries := none },
          some (statusError StatusInternalServerError err)) }
    | (none, none) =>
      { calls := [query], projection := none, result := none }
    | (some frame, none) =>
      let trace := projectTraced frame
      { calls := [query], projection := some trace, result := trace.result }

/-! ## The route invoker (`apps/alerting/historian/pkg/app/app.go`) -/

/-- A Go `error` value that is not nil: a `*apierrors.StatusError`, or any other
error, kept by its text. -/
inductive GoError where
  | status (err : StatusError)
  | other (text : String)
  deriving DecidableEq, Repr

/-- Go `type Handlers interface` of `config/config.go`. An implementation
returns a response and an error (`none` is nil), or panics (outer `none`). -/
structure Handlers where
  AlertStateQueryHandler :
    Context → CreateAlertstatequeryRequestBody → Option (CreateAlertstatequery × Option GoError)

/-- Go `type handlerInvoker struct`. -/
structure handlerInvoker where
  handlers : Handlers

/-- The `handlers` of `handlers.go` as an implementation of the interface
`config.Handlers`. -/
def handlers.toHandlers (h : handlers) : Handlers :=
  { AlertStateQueryHandler := fun ctx req =>
      match (h.AlertStateQueryHandler ctx req).result with
      | none => none
      | some (resp, err) => some (resp, err.map GoError.status) }

/-- Modelled from the spec: the response writer of the host framework
(`app.CustomRouteResponseWriter`, not under `src/`): the header lines added,
the status code written, if any, and the body chunks written, in order. -/
structure ResponseWriter where
  header : List (String × String)
  statusCode : Option Int
  body : List String
  deriving DecidableEq, Repr

/-- Go `writer.Header().Add(key, value)`. -/
def ResponseWriter.HeaderAdd (writer : ResponseWriter) (key value : String) : ResponseWriter :=
  { writer with header := writer.header ++ [(key, value)] }

/-- Go `writer.WriteHeader(statusCode)`; only the first call sets the code. -/
def ResponseWriter.WriteHeader (writer : ResponseWriter) (statusCode : Int) : ResponseWriter :=
  match writer.statusCode with
  | some _ => writer
  | none => { writer with statusCode := some statusCode }

/-- Go `writer.Write(data)`; a write before `WriteHeader` sends status 200. -/
def ResponseWriter.Write (writer : ResponseWriter) (data : String) : ResponseWriter :=
  let writer := writer.WriteHeader 200
  { writer with body := writer.body ++ [data] }

/-- A writer nothing has been written to. -/
def ResponseWriter.empty : ResponseWriter :=
  { header := [], statusCode := none, body := [] }

/-- Modelled from the spec: the request of the host framework
(`app.CustomRouteRequest`, not under `src/`); only the bytes of its body are
read. -/
structure CustomRouteRequest where
  Body : String
  deriving DecidableEq, Repr

/-- Modelled from the spec: JSON wire decoding and encoding (package
`encoding/json`, outside the repository), taken as given: `decode` is
`json.NewDecoder(body).Decode(&reqBody)` and returns the decoded body or the
text of the decode error, `encode` is the marshalling done by
`json.NewEncoder(writer).Encode(respBody)` and returns the bytes to write or the
text of the error. -/
structure JSONCodec where
  decode : String → Except String CreateAlertstatequeryRequestBody
  encode : CreateAlertstatequery → Except String String

/-- Constant `http.StatusOK`. -/
def StatusOK : Int := 200

/-- One execution of the route invoker: the request bodies handed to the
handler, in call order, the response writer afterwards, and the error returned
(inner `none` is nil; outer `none` is a panic of the handler). -/
structure InvokeRun where
  handlerCalls : List CreateAlertstatequeryRequestBody
  writer : ResponseWriter
  result : Option (Option GoError)

/-- Go `func (h handlerInvoker) InvokeGetAlertStateHistoryHandler(ctx, writer,
request)`. -/
def handlerInvoker.InvokeGetAlertStateHistoryHandler (h : handlerInvoker) (json : JSONCodec)
    (ctx : Context) (writer : ResponseWriter) (request : CustomRouteRequest) : InvokeRun :=
  match json.decode request.Body with
  | Except.error err =>
    { handlerCalls := [], writer := writer,
      result := some (some (GoError.status (statusError StatusBadRequest err))) }
  | Except.ok reqBody =>
    match h.handlers.AlertStateQueryHandler ctx reqBody with
    | none => { handlerCalls := [reqBody], writer := writer, result := none }
    | some (_, some err) =>
      { handlerCalls := [reqBody], writer := writer, result := some (some err) }
    | some (respBody, none) =>
      let writer := writer.HeaderAdd "Content-Type" "application/json"
      let writer := writer.WriteHeader StatusOK
      match json.encode respBody with
      | Except.error err =>
        { handlerCalls := [reqBody], writer := writer, result := some (some (GoError.other err)) }
      | Except.ok data =>
        { handlerCalls := [reqBody], writer := writer.Write data, result := some none }

/-- A JSON codec for the tests: it decodes the empty object to the request body
with every field unset, rejects any other input with the given error text, and
encodes every response to the given bytes. -/
def stubCodec (decodeError encoded : String) : JSONCodec :=
  { decode := fun body =>
      if body = "{}" then Except.ok NewCreateAlertstatequeryRequestBody
      else Except.error decodeError
    encode := fun _ => Except.ok encoded }

/-! ## Vocabulary of the claims on the projection loop -/

/-- Row `row` is well typed: the cell of column `timeIdx` is a timestamp and the
cell of column `lineIdx` is a string. -/
def rowWellTyped (frame : Frame) (timeIdx lineIdx : Int) (row : Int) : Bool :=
  match frame.At timeIdx row, frame.At lineIdx row with
  | some (Cell.time _), some (Cell.string _) => true
  | _, _ => false

/-- The cell reads of `count` complete loop iterations starting at `row`: the
Time cell, then the Line cell, row after row. -/
def loopReads (timeIdx lineIdx : Int) : Int → Nat → List (Int × Int)
  | _, 0 => []
  | row, count + 1 => (timeIdx, row) :: (lineIdx, row) :: loopReads timeIdx lineIdx (row + 1) count

/-- The status error of a Time cell that is not a timestamp. -/
def timeCellError : StatusError :=
  statusError StatusInternalServerError
    "log Time field not a time.Time in historian query response"

/-- The status error of a Line cell that is not a string. -/
def lineCellError : StatusError :=
  statusError StatusInternalServerError
    "log Line field not a string in historian query response"

/-- A read of the loop body at row `row` is out of range: the cell of column
`timeIdx` is missing, or it is a timestamp and the cell of column `lineIdx` is
missing (the Line cell is only read after a Time cell that is a timestamp). -/
def rowPanics (frame : Frame) (timeIdx lineIdx : Int) (row : Int) : Bool :=
  match frame.At timeIdx row with
  | none => true
  | some timeCell =>
    match timeCell.asTime, frame.At lineIdx row with
    | some _, none => true
    | _, _ => false

/-! ## Further inputs: frames with columns of different lengths -/

/-- Go `mockHistorian` whose `queryFunc` returns a nil frame and a nil error. -/
def nilHistorian : Historian :=
  { Query := fun _ _ => (none, none) }

/-- A one-row frame whose Line column holds a float and whose Time column holds
no cell: `data.NewFrame("test", NewField("Line", []float64{1}),
NewField("Time", []time.Time{}))`. -/
def frameWithEmptyTime : Frame :=
  { Name := "test",
    Fields := [
      { Name := "Line", cells := [Cell.float64 0x3FF0000000000000] },
      { Name := "Time", cells := [] }] }

/-- A two-row frame (the Line column comes first) whose second Line cell is a
float and whose Time column holds a single cell. -/
def frameWithShortTime : Frame :=
  { Name := "test",
    Fields := [
      { Name := "Line", cells := [Cell.string "alert fired", Cell.float64 0x3FF0000000000000] },
      { Name := "Time", cells := [Cell.time testNow] }] }

/-- A two-row frame of timestamps whose Line column holds a single string. -/
def frameWithShortLine : Frame :=
  { Name := "test",
    Fields := [
      { Name := "Time", cells := [Cell.time testNow, Cell.time testNowPlusSecond] },
      { Name := "Line", cells := [Cell.string "alert fired"] }] }

/-- A three-row frame of timestamps whose Line column holds a string, then a
float, and no third cell: row 0 is well typed, row 1 is malformed. -/
def frameWithBadSecondLine : Frame :=
  { Name := "test",
    Fields := [
      { Name := "Time",
        cells := [Cell.time testNow, Cell.time testNowPlusSecond, Cell.time testNowPlusSecond] },
      { Name := "Line", cells := [Cell.string "alert fired", Cell.float64 0x3FF0000000000000] }] }

/-- A two-row frame whose second Time cell is a string and whose Line column
holds a single string: row 0 is well typed, row 1 has a malformed Time cell and
no Line cell. -/
def frameWithBadSecondTime : Frame :=
  { Name := "test",
    Fields := [
      { Name := "Time", cells := [Cell.time testNow, Cell.string "not a time"] },
      { Name := "Line", cells := [Cell.string "alert fired"] }] }

/-! ## Column lookup -/

theorem fieldByNameFrom_neg_iff (fieldName : String) :
    ∀ (fields : List Field) (i : Nat),
      (fieldByNameFrom fieldName fields i).2 < 0 ↔ ∀ field ∈ fields, field.Name ≠ fieldName := by
  intro fields
  induction fields with
  | nil => intro i; simp [fieldByNameFrom]
  | cons field rest ih =>
    intro i
    by_cases hname : field.Name = fieldName
    · simp [fieldByNameFrom, hname]
    · simp [fieldByNameFrom, hname, ih]

theorem fieldByNameFrom_neg_eq (fieldName : String) :
    ∀ (fields : List Field) (i : Nat),
      (fieldByNameFrom fieldName fields i).2 < 0 →
        fieldByNameFrom fieldName fields i = (none, -1) := by
  intro fields
  induction fields with
  | nil => intro i _; simp [fieldByNameFrom]
  | cons field rest ih =>
    intro i
    by_cases hname : field.Name = fieldName
    · simp [fieldByNameFrom, hname]
    · simpa [fieldByNameFrom, hname] using ih (i + 1)

theorem FieldByName_neg_iff (frame : Frame) (fieldName : String) :
    (frame.FieldByName fieldName).2 < 0 ↔ ∀ field ∈ frame.Fields, field.Name ≠ fieldName :=
  fieldByNameFrom_neg_iff fieldName frame.Fields 0

theorem FieldByName_nonneg_iff (frame : Frame) (fieldName : String) :
    0 ≤ (frame.FieldByName fieldName).2 ↔ ∃ field ∈ frame.Fields, field.Name = fieldName := by
  have h := FieldByName_neg_iff frame fieldName
  constructor
  · intro h0
    by_contra hne
    push_neg at hne
    have := h.mpr hne
    omega
  · rintro ⟨field, hmem, hname⟩
    by_contra hneg
    exact (h.mp (by omega)) field hmem hname

/-! ## The projection loop -/

theorem projectRows_ok (frame : Frame) (timeIdx lineIdx : Int)
    (timeOf : Nat → time.Time) (lineOf : Nat → String) :
    ∀ (remaining row : Nat) (acc : List AlertStateEntry),
      (∀ i, i < remaining →
        frame.At timeIdx ((row + i : Nat) : Int) = some (Cell.time (timeOf (row + i))) ∧
        frame.At lineIdx ((row + i : Nat) : Int) = some (Cell.string (lineOf (row + i)))) →
      projectRows frame timeIdx lineIdx remaining (row : Int) { Entries := some acc } =
        some ({ Entries := some (acc ++ (List.range remaining).map
          (fun i => { Timestamp := (timeOf (row + i)).UnixNano, Line := lineOf (row + i) })) },
          none) := by
  intro remaining
  induction remaining with
  | zero => intro row acc _; simp [projectRows]
  | succ m ih =>
    intro row acc hrows
    have h0 := hrows 0 (Nat.succ_pos m)
    simp only [Nat.add_zero] at h0
    have hcast : ((row : Nat) : Int) + 1 = ((row + 1 : Nat) : Int) := by push_cast; rfl
    have hrest : ∀ i, i < m →
        frame.At timeIdx ((row + 1 + i : Nat) : Int) = some (Cell.time (timeOf (row + 1 + i))) ∧
        frame.At lineIdx ((row + 1 + i : Nat) : Int) = some (Cell.string (lineOf (row + 1 + i))) := by
      intro i hi
      have := hrows (i + 1) (Nat.succ_lt_succ hi)
      have e : row + (i + 1) = row + 1 + i := by omega
      rwa [e] at this
    simp only [projectRows, h0.1, h0.2, Cell.asTime, Cell.asString, sliceAppend, hcast]
    rw [ih (row + 1) _ hrest, List.range_succ_eq_map, List.map_cons, List.map_map]
    simp [Function.comp, Nat.add_assoc, Nat.add_comm 1]

theorem projectRows_sound (frame : Frame) (timeIdx lineIdx : Int) :
    ∀ (remaining row : Nat) (acc : List AlertStateEntry) (resp : CreateAlertstatequery),
      projectRows frame timeIdx lineIdx remaining (row : Int) { Entries := some acc } =
        some (resp, none) →
      ∃ l : List AlertStateEntry, resp.Entries = some (acc ++ l) ∧ l.length = remaining ∧
        ∀ i, i < remaining → ∃ t s,
          frame.At timeIdx ((row + i : Nat) : Int) = some (Cell.time t) ∧
          frame.At lineIdx ((row + i : Nat) : Int) = some (Cell.string s) ∧
          l.get? i = some { Timestamp := t.UnixNano, Line := s } := by
  intro remaining
  induction remaining with
  | zero =>
    intro row acc resp h
    simp only [projectRows, Option.some.injEq, Prod.mk.injEq, and_true] at h
    exact ⟨[], by simp [← h], rfl, fun i hi => absurd hi (Nat.not_lt_zero i)⟩
  | succ m ih =>
    intro row acc resp h
    have hcast : ((row : Nat) : Int) + 1 = ((row + 1 : Nat) : Int) := by push_cast; rfl
    rw [projectRows] at h
    cases hT : frame.At timeIdx (row : Int) with
    | none => simp [hT] at h
    | some timeCell =>
      cases hTc : timeCell.asTime with
      | none => simp [hT, hTc] at h
      | some timestamp =>
        cases hL : frame.At lineIdx (row : Int) with
        | none => simp [hT, hTc, hL] at h
        | some lineCell =>
          cases hLc : lineCell.asString with
          | none => simp [hT, hTc, hL, hLc] at h
          | some line =>
            simp only [hT, hTc, hL, hLc, sliceAppend, hcast] at h
            obtain ⟨l, hl, hlen, hrows⟩ := ih (row + 1) _ resp h
            have hTime : timeCell = Cell.time timestamp := by
              cases timeCell <;> simp_all [Cell.asTime]
            have hLine : lineCell = Cell.string line := by
              cases lineCell <;> simp_all [Cell.asString]
            refine ⟨{ Timestamp := timestamp.UnixNano, Line := line } :: l, ?_, ?_, ?_⟩
            · simp [hl]
            · simp [hlen]
            · intro i hi
              cases i with
              | zero => exact ⟨timestamp, line, by simp [hT, hTime], by simp [hL, hLine], by simp⟩
              | succ j =>
                obtain ⟨t, s, h1, h2, h3⟩ := hrows j (by omega)
                have e : row + (j + 1) = row + 1 + j := by omega
                exact ⟨t, s, by rw [e]; exact h1, by rw [e]; exact h2, by simpa using h3⟩

theorem projectRows_panic (frame : Frame) (timeIdx lineIdx : Int) :
    ∀ (remaining row : Nat) (result : CreateAlertstatequery),
      projectRows frame timeIdx lineIdx remaining (row : Int) result = none →
      ∃ k, k < remaining ∧
        (frame.At timeIdx ((row + k : Nat) : Int) = none ∨
          frame.At lineIdx ((row + k : Nat) : Int) = none) := by
  intro remaining
  induction remaining with
  | zero => intro row result h; simp [projectRows] at h
  | succ m ih =>
    intro row result h
    have hcast : ((row : Nat) : Int) + 1 = ((row + 1 : Nat) : Int) := by push_cast; rfl
    rw [projectRows] at h
    cases hT : frame.At timeIdx (row : Int) with
    | none => exact ⟨0, Nat.succ_pos m, Or.inl (by simpa using hT)⟩
    | some timeCell =>
      cases hTc : timeCell.asTime with
      | none => simp [hT, hTc] at h
      | some timestamp =>
        cases hL : frame.At lineIdx (row : Int) with
        | none => exact ⟨0, Nat.succ_pos m, Or.inr (by simpa using hL)⟩
        | some lineCell =>
          cases hLc : lineCell.asString with
          | none => simp [hT, hTc, hL, hLc] at h
          | some line =>
            simp only [hT, hTc, hL, hLc, hcast] at h
            obtain ⟨k, hk, hor⟩ := ih (row + 1) _ h
            have e : row + (k + 1) = row + 1 + k := by omega
            exact ⟨k + 1, by omega, by rw [e]; exact hor⟩

theorem projectRows_error (frame : Frame) (timeIdx lineIdx : Int) :
    ∀ (remaining : Nat) (row : Int) (result resp : CreateAlertstatequery) (err : StatusError),
      projectRows frame timeIdx lineIdx remaining row result = some (resp, some err) →
      resp.Entries = none ∧
        (err = statusError StatusInternalServerError
            "log Time field not a time.Time in historian query response" ∨
          err = statusError StatusInternalServerError
            "log Line field not a string in historian query response") := by
  intro remaining
  induction remaining with
  | zero => intro row result resp err h; simp [projectRows] at h
  | succ m ih =>
    intro row result resp err h
    rw [projectRows] at h
    cases hT : frame.At timeIdx row with
    | none => simp [hT] at h
    | some timeCell =>
      cases hTc : timeCell.asTime with
      | none =>
        simp only [hT, hTc, Option.some.injEq, Prod.mk.injEq] at h
        exact ⟨by rw [← h.1], Or.inl h.2.symm⟩
      | some timestamp =>
        cases hL : frame.At lineIdx row with
        | none => simp [hT, hTc, hL] at h
        | some lineCell =>
          cases hLc : lineCell.asString with
          | none =>
            simp only [hT, hTc, hL, hLc, Option.some.injEq, Prod.mk.injEq] at h
            exact ⟨by rw [← h.1], Or.inr h.2.symm⟩
          | some line =>
            simp only [hT, hTc, hL, hLc] at h
            exact ih _ _ resp err h

/-! ## The projection as a whole -/

theorem Rows_nonneg (frame : Frame) : 0 ≤ frame.Rows := by
  unfold Frame.Rows
  cases frame.Fields with
  | nil => simp
  | cons field rest => simp

theorem project_empty (frame : Frame) (hrows : frame.Rows ≤ 0) :
    project frame = some ({ Entries := some [] }, none) := by
  simp [project, hrows]

theorem project_rows (frame : Frame) (hrows : 0 < frame.Rows)
    (hline : 0 ≤ (frame.FieldByName "Line").2) (htime : 0 ≤ (frame.FieldByName "Time").2) :
    project frame =
      projectRows frame (frame.FieldByName "Time").2 (frame.FieldByName "Line").2
        frame.Rows.toNat ((0 : Nat) : Int) { Entries := some [] } := by
  simp [project, not_le.mpr hrows, not_lt.mpr hline, not_lt.mpr htime]

theorem project_no_line (frame : Frame) (hrows : 0 < frame.Rows)
    (hline : (frame.FieldByName "Line").2 < 0) :
    project frame = some ({ Entries := none },
      some (statusError StatusInternalServerError
        "no Line field found in historian query response")) := by
  simp [project, not_le.mpr hrows, hline]

theorem project_no_time (frame : Frame) (hrows : 0 < frame.Rows)
    (hline : 0 ≤ (frame.FieldByName "Line").2) (htime : (frame.FieldByName "Time").2 < 0) :
    project frame = some ({ Entries := none },
      some (statusError StatusInternalServerError
        "no Time field found in historian query response")) := by
  simp [project, not_le.mpr hrows, not_lt.mpr hline, htime]

/-! ## Gate, query and engine call -/

theorem handler_unauthenticated (h : handlers) (ctx : Context)
    (req : CreateAlertstatequeryRequestBody) (hauth : ctx.requester = none) :
    h.AlertStateQueryHandler ctx req =
      { calls := [],
        result := some ({ Entries := none },
          some (statusError StatusUnauthorized "authentication required")) } := by
  simp [handlers.AlertStateQueryHandler, GetRequester, hauth]

theorem handler_calls (h : handlers) (ctx : Context) (req : CreateAlertstatequeryRequestBody)
    (user : Requester) (hauth : ctx.requester = some user) :
    (h.AlertStateQueryHandler ctx req).calls = [buildQuery user req] := by
  simp only [handlers.AlertStateQueryHandler, GetRequester, hauth]
  rcases h.historian.Query ctx (buildQuery user req) with ⟨_ | frame, _ | err⟩ <;> rfl

theorem handler_engine_ok (h : handlers) (ctx : Context) (req : CreateAlertstatequeryRequestBody)
    (user : Requester) (frame : Frame) (hauth : ctx.requester = some user)
    (hquery : h.historian.Query ctx (buildQuery user req) = (some frame, none)) :
    (h.AlertStateQueryHandler ctx req).result = project frame := by
  simp [handlers.AlertStateQueryHandler, GetRequester, hauth, hquery]

theorem handler_engine_error (h : handlers) (ctx : Context)
    (req : CreateAlertstatequeryRequestBody) (user : Requester) (frame : Option Frame)
    (err : String) (hauth : ctx.requester = some user)
    (hquery : h.historian.Query ctx (buildQuery user req) = (frame, some err)) :
    (h.AlertStateQueryHandler ctx req).result =
      some ({ Entries := none }, some (statusError StatusInternalServerError err)) := by
  cases frame <;> simp [handlers.AlertStateQueryHandler, GetRequester, hauth, hquery]

theorem engine_result_cases (out : Option Frame × Option String) :
    (∃ frame err, out = (frame, some err)) ∨ out = (none, none) ∨
      ∃ frame, out = (some frame, none) := by
  rcases out with ⟨_ | frame, _ | err⟩
  · exact Or.inr (Or.inl rfl)
  · exact Or.inl ⟨none, err, rfl⟩
  · exact Or.inr (Or.inr ⟨frame, rfl⟩)
  · exact Or.inl ⟨some frame, err, rfl⟩

theorem handler_engine_nil (h : handlers) (ctx : Context)
    (req : CreateAlertstatequeryRequestBody) (user : Requester)
    (hauth : ctx.requester = some user)
    (hquery : h.historian.Query ctx (buildQuery user req) = (none, none)) :
    (h.AlertStateQueryHandler ctx req).result = none := by
  simp [handlers.AlertStateQueryHandler, GetRequester, hauth, hquery]

/-! ## Claims on the result projection -/

/-- C1: for an authenticated request whose engine call succeeds with a frame of
`n > 0` rows that has a column named "Line" and a column named "Time", where at
every row `i < n` the Time cell is the timestamp `timeOf i` and the Line cell is
the string `lineOf i`, the handler returns no error and a response of exactly
`n` entries whose `i`-th entry is `(UnixNano (timeOf i), lineOf i)`: the entries
are in row order. -/
theorem AlertStateQueryHandler_projects_rows (h : handlers) (ctx : Context)
    (req : CreateAlertstatequeryRequestBody) (user : Requester) (frame : Frame) (n : Nat)
    (timeOf : Nat → time.Time) (lineOf : Nat → String)
    (hauth : ctx.requester = some user)
    (hquery : h.historian.Query ctx (buildQuery user req) = (some frame, none))
    (hrows : frame.Rows = (n : Int)) (hpos : 0 < n)
    (hline : ∃ field ∈ frame.Fields, field.Name = "Line")
    (htime : ∃ field ∈ frame.Fields, field.Name = "Time")
    (hcells : ∀ i, i < n →
      frame.At (frame.FieldByName "Time").2 (i : Int) = some (Cell.time (timeOf i)) ∧
      frame.At (frame.FieldByName "Line").2 (i : Int) = some (Cell.string (lineOf i))) :
    ∃ entries : List AlertStateEntry,
      (h.AlertStateQueryHandler ctx req).result = some ({ Entries := some entries }, none) ∧
      entries.length = n ∧
      ∀ i, i < n →
        entries.get? i = some { Timestamp := (timeOf i).UnixNano, Line := lineOf i } := by
  have hL := (FieldByName_nonneg_iff frame "Line").mpr hline
  have hT := (FieldByName_nonneg_iff frame "Time").mpr htime
  have hloop := projectRows_ok frame (frame.FieldByName "Time").2 (frame.FieldByName "Line").2
    timeOf lineOf n 0 [] (by simpa using hcells)
  refine ⟨(List.range n).map
    (fun i => { Timestamp := (timeOf i).UnixNano, Line := lineOf i }), ?_, by simp, ?_⟩
  · rw [handler_engine_ok h ctx req user frame hauth hquery,
      project_rows frame (by omega) hL hT, hrows, Int.toNat_ofNat, hloop]
    simp
  · intro i hi
    simp [List.getElem?_map, List.getElem?_range hi]

/-- Witness of C1: the frame of the test "returns entries when query succeeds",
two rows, under organization 123. -/
theorem AlertStateQueryHandler_projects_rows_witness :
    ∃ entries : List AlertStateEntry,
      (handlers.AlertStateQueryHandler { historian := mockHistorian testFrame }
        (contextWithOrg 123) NewCreateAlertstatequeryRequestBody).result =
          some ({ Entries := some entries }, none) ∧
      entries.length = 2 ∧
      ∀ i, i < 2 →
        entries.get? i =
          some { Timestamp := ([testNow, testNowPlusSecond].getD i testNow).UnixNano,
                 Line := ["alert fired", "alert resolved"].getD i "" } :=
  AlertStateQueryHandler_projects_rows { historian := mockHistorian testFrame }
    (contextWithOrg 123) NewCreateAlertstatequeryRequestBody
    { OrgID := 123, UserID := 0, Login := "" } testFrame 2
    (fun i => [testNow, testNowPlusSecond].getD i testNow)
    (fun i => ["alert fired", "alert resolved"].getD i "")
    rfl rfl rfl (by decide)
    ⟨{ Name := "Line", cells := [Cell.string "alert fired", Cell.string "alert resolved"] },
      by simp [testFrame], rfl⟩
    ⟨{ Name := "Time", cells := [Cell.time testNow, Cell.time testNowPlusSecond] },
      by simp [testFrame], rfl⟩
    (by
      intro i hi
      interval_cases i <;>
        simp [testFrame, Frame.At, Frame.FieldByName, fieldByNameFrom])

/-- C2: whenever the handler returns a response without an error, the engine
returned a frame, the number of entries of the response equals the row count of
that frame, and for every row `i` the `i`-th entry is built from the Time cell
and the Line cell of row `i` of that frame. -/
theorem AlertStateQueryHandler_row_count (h : handlers) (ctx : Context)
    (req : CreateAlertstatequeryRequestBody) (resp : CreateAlertstatequery)
    (hok : (h.AlertStateQueryHandler ctx req).result = some (resp, none)) :
    ∃ (user : Requester) (frame : Frame),
      ctx.requester = some user ∧
      h.historian.Query ctx (buildQuery user req) = (some frame, none) ∧
      (sliceLen resp.Entries : Int) = frame.Rows ∧
      ∀ i : Nat, (i : Int) < frame.Rows → ∃ t s,
        frame.At (frame.FieldByName "Time").2 (i : Int) = some (Cell.time t) ∧
        frame.At (frame.FieldByName "Line").2 (i : Int) = some (Cell.string s) ∧
        sliceGet resp.Entries i = some { Timestamp := t.UnixNano, Line := s } := by
  cases hctx : ctx.requester with
  | none =>
    rw [handler_unauthenticated h ctx req hctx] at hok
    simp at hok
  | some user =>
    rcases engine_result_cases (h.historian.Query ctx (buildQuery user req)) with
      ⟨frame, err, hq⟩ | hq | ⟨frame, hq⟩
    · rw [handler_engine_error h ctx req user frame err hctx hq] at hok
      simp at hok
    · rw [handler_engine_nil h ctx req user hctx hq] at hok
      simp at hok
    · rw [handler_engine_ok h ctx req user frame hctx hq] at hok
      refine ⟨user, frame, rfl, hq, ?_⟩
      by_cases hrows : frame.Rows ≤ 0
      · rw [project_empty frame hrows] at hok
        simp only [Option.some.injEq, Prod.mk.injEq, and_true] at hok
        have h0 := Rows_nonneg frame
        refine ⟨by rw [← hok]; simp [sliceLen]; omega, fun i hi => absurd hi (by omega)⟩
      · have hpos : 0 < frame.Rows := not_le.mp hrows
        by_cases hline : (frame.FieldByName "Line").2 < 0
        · rw [project_no_line frame hpos hline] at hok
          simp at hok
        · by_cases htime : (frame.FieldByName "Time").2 < 0
          · rw [project_no_time frame hpos (not_lt.mp hline) htime] at hok
            simp at hok
          · rw [project_rows frame hpos (not_lt.mp hline) (not_lt.mp htime)] at hok
            obtain ⟨l, hl, hlen, hrowsOk⟩ := projectRows_sound frame _ _ _ 0 [] resp hok
            refine ⟨by rw [hl]; simp [sliceLen, hlen]; omega, ?_⟩
            intro i hi
            obtain ⟨t, s, h1, h2, h3⟩ := hrowsOk i (by omega)
            refine ⟨t, s, by simpa using h1, by simpa using h2, ?_⟩
            rw [hl]
            simpa [sliceGet] using h3

/-- Witness of C2: the two-row frame of the test suite. -/
theorem AlertStateQueryHandler_row_count_witness :
    ∃ (user : Requester) (frame : Frame),
      (contextWithOrg 123).requester = some user ∧
      (mockHistorian testFrame).Query (contextWithOrg 123)
        (buildQuery user NewCreateAlertstatequeryRequestBody) = (some frame, none) ∧
      (sliceLen (some [({ Timestamp := testNow.UnixNano, Line := "alert fired" } :
          AlertStateEntry),
        { Timestamp := testNowPlusSecond.UnixNano, Line := "alert resolved" }]) : Int) =
          frame.Rows ∧
      ∀ i : Nat, (i : Int) < frame.Rows → ∃ t s,
        frame.At (frame.FieldByName "Time").2 (i : Int) = some (Cell.time t) ∧
        frame.At (frame.FieldByName "Line").2 (i : Int) = some (Cell.string s) ∧
        sliceGet (some [({ Timestamp := testNow.UnixNano, Line := "alert fired" } :
            AlertStateEntry),
          { Timestamp := testNowPlusSecond.UnixNano, Line := "alert resolved" }]) i =
            some { Timestamp := t.UnixNano, Line := s } :=
  AlertStateQueryHandler_row_count { historian := mockHistorian testFrame }
    (contextWithOrg 123) NewCreateAlertstatequeryRequestBody
    { Entries := some [{ Timestamp := testNow.UnixNano, Line := "alert fired" },
        { Timestamp := testNowPlusSecond.UnixNano, Line := "alert resolved" }] }
    (by
      simp [handlers.AlertStateQueryHandler, GetRequester, contextWithOrg, mockHistorian,
        project, testFrame, Frame.Rows, Field.Len, Frame.FieldByName, fieldByNameFrom,
        projectRows, Frame.At, Cell.asTime, Cell.asString, sliceAppend])

/-- C4: for an authenticated request whose engine call succeeds with a frame of
zero rows, whatever its columns, the handler returns no error and a response
whose entry sequence is present and has length 0. -/
theorem AlertStateQueryHandler_empty_frame (h : handlers) (ctx : Context)
    (req : CreateAlertstatequeryRequestBody) (user : Requester) (frame : Frame)
    (hauth : ctx.requester = some user)
    (hquery : h.historian.Query ctx (buildQuery user req) = (some frame, none))
    (hrows : frame.Rows = 0) :
    (h.AlertStateQueryHandler ctx req).result = some ({ Entries := some [] }, none) := by
  rw [handler_engine_ok h ctx req user frame hauth hquery, project_empty frame (by omega)]

/-- Witness of C4: the frame without columns of the test "returns empty result
when frame has no rows". -/
theorem AlertStateQueryHandler_empty_frame_witness :
    emptyFrame.Rows = 0 ∧
      (handlers.AlertStateQueryHandler { historian := mockHistorian emptyFrame }
        (contextWithOrg 1) NewCreateAlertstatequeryRequestBody).result =
          some ({ Entries := some [] }, none) :=
  ⟨rfl, AlertStateQueryHandler_empty_frame { historian := mockHistorian emptyFrame }
    (contextWithOrg 1) NewCreateAlertstatequeryRequestBody
    { OrgID := 1, UserID := 0, Login := "" } emptyFrame rfl rfl rfl⟩

/-! ## The query builder -/

theorem wrapInt64_of_isInt64 (x : Int) (hx : isInt64 x) : wrapInt64 x = x := by
  unfold isInt64 at hx
  unfold wrapInt64
  omega

theorem Unix_sec_roundtrip (s : Int) (hs : isInt64 s) :
    (time.Unix s 0).Unix = s ∧ (time.Unix s 0).Nanosecond = 0 := by
  unfold isInt64 at hs
  constructor
  · simp only [time.Unix, time.Time.Unix, time.internalToUnix, time.unixToInternal, wrapInt64]
    norm_num
    omega
  · simp [time.Unix, time.Time.Nanosecond]

theorem buildQuery_eq (user : Requester) (req : CreateAlertstatequeryRequestBody) :
    buildQuery user req =
      { RuleUID := req.RuleUID.getD "", OrgID := user.GetOrgID,
        DashboardUID := req.DashboardUID.getD "", PanelID := req.PanelID.getD 0,
        Labels := req.Labels,
        From := (req.From.map (fun v => time.Unix v 0)).getD time.zero,
        To := (req.To.map (fun v => time.Unix v 0)).getD time.zero,
        Limit := (req.Limit.map intOfInt64).getD 0,
        Previous := (req.Previous.map CreateAlertstatequeryRequestState.val).getD "",
        Current := (req.Current.map CreateAlertstatequeryRequestState.val).getD "",
        SignedInUser := some user } := by
  obtain ⟨f, t, l, r, d, p, pr, c, lab⟩ := req
  cases f <;> cases t <;> cases l <;> cases r <;> cases d <;> cases p <;> cases pr <;>
    cases c <;> rfl

/-! ## Claims on the gate and the query builder -/

/-- C5: under a caller identity the handler hands exactly one query to the
engine, whose `OrgID` is the organization id of that identity and whose
`SignedInUser` is that identity; any other request body (and engine) handled
under the same context yields a query with the same `OrgID`. -/
theorem AlertStateQueryHandler_tenant (h : handlers) (ctx : Context)
    (req : CreateAlertstatequeryRequestBody) (user : Requester)
    (hauth : ctx.requester = some user) :
    ∃ query : HistoryQuery, (h.AlertStateQueryHandler ctx req).calls = [query] ∧
      query.OrgID = user.GetOrgID ∧ query.SignedInUser = some user ∧
      ∀ (h2 : handlers) (req2 : CreateAlertstatequeryRequestBody),
        ∃ query2 : HistoryQuery, (h2.AlertStateQueryHandler ctx req2).calls = [query2] ∧
          query2.OrgID = query.OrgID := by
  refine ⟨buildQuery user req, handler_calls h ctx req user hauth, ?_, ?_, ?_⟩
  · rw [buildQuery_eq]
  · rw [buildQuery_eq]
  · intro h2 req2
    exact ⟨buildQuery user req2, handler_calls h2 ctx req2 user hauth, by
      rw [buildQuery_eq, buildQuery_eq]⟩

/-- Witness of C5: organization 123 and the fully populated request of the test
suite. -/
theorem AlertStateQueryHandler_tenant_witness :
    ∃ query : HistoryQuery,
      (handlers.AlertStateQueryHandler { historian := mockHistorian testFrame }
        (contextWithOrg 123) fullRequest).calls = [query] ∧
      query.OrgID = Requester.GetOrgID { OrgID := 123, UserID := 0, Login := "" } ∧
      query.SignedInUser = some { OrgID := 123, UserID := 0, Login := "" } ∧
      ∀ (h2 : handlers) (req2 : CreateAlertstatequeryRequestBody),
        ∃ query2 : HistoryQuery,
          (h2.AlertStateQueryHandler (contextWithOrg 123) req2).calls = [query2] ∧
          query2.OrgID = query.OrgID :=
  AlertStateQueryHandler_tenant { historian := mockHistorian testFrame }
    (contextWithOrg 123) fullRequest { OrgID := 123, UserID := 0, Login := "" } rfl

/-- C6: when the context carries no caller identity the handler returns the
status error with code 401 and message "authentication required" together with
a response without entries, and hands no query to the engine, whatever the
engine and the request body are. -/
theorem AlertStateQueryHandler_unauthenticated (h : handlers) (ctx : Context)
    (req : CreateAlertstatequeryRequestBody) (hauth : ctx.requester = none) :
    (h.AlertStateQueryHandler ctx req).result =
        some ({ Entries := none },
          some { ErrStatus :=
            { Status := "Failure", Code := 401, Message := "authentication required" } }) ∧
      (h.AlertStateQueryHandler ctx req).calls = [] := by
  rw [handler_unauthenticated h ctx req hauth]
  exact ⟨rfl, rfl⟩

/-- Witness of C6: the background context of the test "returns unauthorized
when no user in context". -/
theorem AlertStateQueryHandler_unauthenticated_witness :
    (handlers.AlertStateQueryHandler { historian := mockHistorian testFrame }
        { requester := none } fullRequest).result =
        some ({ Entries := none },
          some { ErrStatus :=
            { Status := "Failure", Code := 401, Message := "authentication required" } }) ∧
      (handlers.AlertStateQueryHandler { historian := mockHistorian testFrame }
        { requester := none } fullRequest).calls = [] :=
  AlertStateQueryHandler_unauthenticated { historian := mockHistorian testFrame }
    { requester := none } fullRequest rfl

/-- C7: for an authenticated request whose integer fields hold `int64` values,
the query handed to the engine carries, for each of ruleUID, dashboardUID,
panelID, limit, previous and current, the value of the request when the field
is present (the states as their plain string, the integers unchanged) and the
zero value (empty string, 0) when it is absent. -/
theorem AlertStateQueryHandler_pass_through (h : handlers) (ctx : Context)
    (req : CreateAlertstatequeryRequestBody) (user : Requester)
    (hauth : ctx.requester = some user) (htyped : req.WellTyped) :
    ∃ query : HistoryQuery, (h.AlertStateQueryHandler ctx req).calls = [query] ∧
      query.RuleUID = req.RuleUID.getD "" ∧
      query.DashboardUID = req.DashboardUID.getD "" ∧
      query.PanelID = req.PanelID.getD 0 ∧
      query.Limit = req.Limit.getD 0 ∧
      query.Previous = (req.Previous.map CreateAlertstatequeryRequestState.val).getD "" ∧
      query.Current = (req.Current.map CreateAlertstatequeryRequestState.val).getD "" := by
  refine ⟨buildQuery user req, handler_calls h ctx req user hauth, ?_⟩
  rw [buildQuery_eq]
  refine ⟨rfl, rfl, rfl, ?_, rfl, rfl⟩
  cases hl : req.Limit with
  | none => rfl
  | some v =>
    simp only [Option.map_some', Option.getD_some, intOfInt64]
    exact wrapInt64_of_isInt64 v (htyped.2.2.1 v hl)

/-- Witness of C7: a request with a negative limit, panel id 0, a present
previous state and the other fields absent. -/
theorem AlertStateQueryHandler_pass_through_witness :
    ∃ query : HistoryQuery,
      (handlers.AlertStateQueryHandler { historian := mockHistorian testFrame }
        (contextWithOrg 99)
        { From := none, To := none, Limit := some (-5), RuleUID := none,
          DashboardUID := some "dash-456", PanelID := some 0,
          Previous := some CreateAlertstatequeryRequestStatePending, Current := none,
          Labels := none }).calls = [query] ∧
      query.RuleUID = "" ∧ query.DashboardUID = "dash-456" ∧ query.PanelID = 0 ∧
      query.Limit = -5 ∧ query.Previous = "pending" ∧ query.Current = "" :=
  AlertStateQueryHandler_pass_through { historian := mockHistorian testFrame }
    (contextWithOrg 99)
    { From := none, To := none, Limit := some (-5), RuleUID := none,
      DashboardUID := some "dash-456", PanelID := some 0,
      Previous := some CreateAlertstatequeryRequestStatePending, Current := none,
      Labels := none }
    { OrgID := 99, UserID := 0, Login := "" } rfl
    (by simp [CreateAlertstatequeryRequestBody.WellTyped, isInt64])

/-- C8: for an authenticated request whose integer fields hold `int64` values,
a present `from` (respectively `to`) of `s` epoch seconds yields
`time.Unix(s, 0)` in `From` (respectively `To`) of the query handed to the
engine, an instant whose Unix seconds are exactly `s` and whose nanoseconds are
0; an absent `from` (respectively `to`) yields the zero timestamp. -/
theorem AlertStateQueryHandler_time_conversion (h : handlers) (ctx : Context)
    (req : CreateAlertstatequeryRequestBody) (user : Requester)
    (hauth : ctx.requester = some user) (htyped : req.WellTyped) :
    ∃ query : HistoryQuery, (h.AlertStateQueryHandler ctx req).calls = [query] ∧
      (∀ s, req.From = some s →
        query.From = time.Unix s 0 ∧ query.From.Unix = s ∧ query.From.Nanosecond = 0) ∧
      (req.From = none → query.From = time.zero) ∧
      (∀ s, req.To = some s →
        query.To = time.Unix s 0 ∧ query.To.Unix = s ∧ query.To.Nanosecond = 0) ∧
      (req.To = none → query.To = time.zero) := by
  refine ⟨buildQuery user req, handler_calls h ctx req user hauth, ?_⟩
  rw [buildQuery_eq]
  refine ⟨?_, ?_, ?_, ?_⟩
  · intro s hs
    have hr := Unix_sec_roundtrip s (htyped.1 s hs)
    simp only [hs, Option.map_some', Option.getD_some]
    exact ⟨trivial, hr.1, hr.2⟩
  · intro hs
    simp [hs]
  · intro s hs
    have hr := Unix_sec_roundtrip s (htyped.2.1 s hs)
    simp only [hs, Option.map_some', Option.getD_some]
    exact ⟨trivial, hr.1, hr.2⟩
  · intro hs
    simp [hs]

/-- Witness of C8: `from = 1000` as in the test suite, `to` absent. -/
theorem AlertStateQueryHandler_time_conversion_witness :
    ∃ query : HistoryQuery,
      (handlers.AlertStateQueryHandler { historian := mockHistorian testFrame }
        (contextWithOrg 99)
        { From := some 1000, To := none, Limit := none, RuleUID := none,
          DashboardUID := none, PanelID := none, Previous := none, Current := none,
          Labels := none }).calls = [query] ∧
      query.From = time.Unix 1000 0 ∧ query.From.Unix = 1000 ∧ query.From.Nanosecond = 0 ∧
      query.To = time.zero := by
  obtain ⟨query, hcalls, hfrom, _, _, hto⟩ :=
    AlertStateQueryHandler_time_conversion { historian := mockHistorian testFrame }
      (contextWithOrg 99)
      { From := some 1000, To := none, Limit := none, RuleUID := none,
        DashboardUID := none, PanelID := none, Previous := none, Current := none,
        Labels := none }
      { OrgID := 99, UserID := 0, Login := "" } rfl
      (by simp [CreateAlertstatequeryRequestBody.WellTyped, isInt64])
  exact ⟨query, hcalls, (hfrom 1000 rfl).1, (hfrom 1000 rfl).2.1, (hfrom 1000 rfl).2.2, hto rfl⟩

/-- C9: for an authenticated request the query handed to the engine carries the
labels of the request: an absent labels field yields a mapping without any
key/value pair, and a present mapping is handed over with exactly the same
key/value pairs. -/
theorem AlertStateQueryHandler_labels (h : handlers) (ctx : Context)
    (req : CreateAlertstatequeryRequestBody) (user : Requester)
    (hauth : ctx.requester = some user) :
    ∃ query : HistoryQuery, (h.AlertStateQueryHandler ctx req).calls = [query] ∧
      (req.Labels = none → query.Labels.len = 0 ∧ ∀ k, query.Labels.lookup k = none) ∧
      (∀ labels, req.Labels = some labels → query.Labels = some labels) ∧
      ∀ k, query.Labels.lookup k = req.Labels.lookup k := by
  refine ⟨buildQuery user req, handler_calls h ctx req user hauth, ?_⟩
  rw [buildQuery_eq]
  refine ⟨?_, ?_, fun k => rfl⟩
  · intro hnone
    simp only [hnone]
    exact ⟨rfl, fun k => rfl⟩
  · intro labels hsome
    simp only [hsome]

/-- Witness of C9: the labels `env = prod` of the test suite. -/
theorem AlertStateQueryHandler_labels_witness :
    ∃ query : HistoryQuery,
      (handlers.AlertStateQueryHandler { historian := mockHistorian testFrame }
        (contextWithOrg 99) fullRequest).calls = [query] ∧
      query.Labels = some (Finmap.singleton "env" "prod") ∧
      query.Labels.lookup "env" = fullRequest.Labels.lookup "env" := by
  obtain ⟨query, hcalls, _, hsome, hlookup⟩ :=
    AlertStateQueryHandler_labels { historian := mockHistorian testFrame }
      (contextWithOrg 99) fullRequest { OrgID := 99, UserID := 0, Login := "" } rfl
  exact ⟨query, hcalls, hsome _ rfl, hlookup "env"⟩

/-- C10: for an authenticated request whose engine call succeeds with a frame
of at least one row that has no column named "Line", the handler returns the
status error with code 500 and message "no Line field found in historian query
response", and a response without entries. -/
theorem AlertStateQueryHandler_missing_line (h : handlers) (ctx : Context)
    (req : CreateAlertstatequeryRequestBody) (user : Requester) (frame : Frame)
    (hauth : ctx.requester = some user)
    (hquery : h.historian.Query ctx (buildQuery user req) = (some frame, none))
    (hrows : 1 ≤ frame.Rows)
    (hline : ∀ field ∈ frame.Fields, field.Name ≠ "Line") :
    (h.AlertStateQueryHandler ctx req).result =
      some ({ Entries := none },
        some { ErrStatus :=
          { Status := "Failure", Code := 500,
            Message := "no Line field found in historian query response" } }) := by
  rw [handler_engine_ok h ctx req user frame hauth hquery,
    project_no_line frame (by omega) ((FieldByName_neg_iff frame "Line").mpr hline)]
  rfl

/-- Witness of C10: the frame of the test "returns error when Line field is
missing", one row and only a Time column. -/
theorem AlertStateQueryHandler_missing_line_witness :
    1 ≤ frameWithoutLine.Rows ∧
      (handlers.AlertStateQueryHandler { historian := mockHistorian frameWithoutLine }
        (contextWithOrg 1) NewCreateAlertstatequeryRequestBody).result =
      some ({ Entries := none },
        some { ErrStatus :=
          { Status := "Failure", Code := 500,
            Message := "no Line field found in historian query response" } }) :=
  ⟨by decide, AlertStateQueryHandler_missing_line
    { historian := mockHistorian frameWithoutLine }
    (contextWithOrg 1) NewCreateAlertstatequeryRequestBody
    { OrgID := 1, UserID := 0, Login := "" } frameWithoutLine rfl rfl (by decide)
    (by simp [frameWithoutLine])⟩

/-! ## The recorded handler returns what the handler returns -/

theorem projectRowsTraced_result (frame : Frame) (timeIdx lineIdx : Int) :
    ∀ (remaining : Nat) (row : Int) (result : CreateAlertstatequery),
      (projectRowsTraced frame timeIdx lineIdx remaining row result).result =
        projectRows frame timeIdx lineIdx remaining row result := by
  intro remaining
  induction remaining with
  | zero => intro row result; rfl
  | succ m ih =>
    intro row result
    rw [projectRowsTraced, projectRows]
    cases hT : frame.At timeIdx row with
    | none => rfl
    | some timeCell =>
      cases hTc : timeCell.asTime with
      | none => simp only [hTc]
      | some timestamp =>
        cases hL : frame.At lineIdx row with
        | none => simp only [hTc, hL]
        | some lineCell =>
          cases hLc : lineCell.asString with
          | none => simp only [hTc, hL, hLc]
          | some line =>
            simp only [hTc, hL, hLc]
            exact ih _ _

theorem projectTraced_result (frame : Frame) : (projectTraced frame).result = project frame := by
  unfold projectTraced project
  by_cases hrows : frame.Rows ≤ 0
  · simp [hrows]
  · by_cases hline : (frame.FieldByName "Line").2 < 0
    · simp [hrows, hline]
    · by_cases htime : (frame.FieldByName "Time").2 < 0
      · simp [hrows, hline, htime]
      · simp [hrows, hline, htime, projectRowsTraced_result]

theorem handlerTraced_result (h : handlers) (ctx : Context)
    (req : CreateAlertstatequeryRequestBody) :
    (h.AlertStateQueryHandlerTraced ctx req).result = (h.AlertStateQueryHandler ctx req).result := by
  unfold handlers.AlertStateQueryHandlerTraced handlers.AlertStateQueryHandler
  cases GetRequester ctx with
  | error e => rfl
  | ok user =>
    simp only
    rcases h.historian.Query ctx (buildQuery user req) with ⟨_ | frame, _ | err⟩
    · rfl
    · rfl
    · exact projectTraced_result frame
    · rfl

theorem handlerTraced_calls (h : handlers) (ctx : Context)
    (req : CreateAlertstatequeryRequestBody) :
    (h.AlertStateQueryHandlerTraced ctx req).calls = (h.AlertStateQueryHandler ctx req).calls := by
  unfold handlers.AlertStateQueryHandlerTraced handlers.AlertStateQueryHandler
  cases GetRequester ctx with
  | error e => rfl
  | ok user =>
    simp only
    rcases h.historian.Query ctx (buildQuery user req) with ⟨_ | frame, _ | err⟩ <;> rfl

theorem handlerTraced_engine_ok (h : handlers) (ctx : Context)
    (req : CreateAlertstatequeryRequestBody) (user : Requester) (frame : Frame)
    (hauth : ctx.requester = some user)
    (hquery : h.historian.Query ctx (buildQuery user req) = (some frame, none)) :
    (h.AlertStateQueryHandlerTraced ctx req).projection = some (projectTraced frame) := by
  simp [handlers.AlertStateQueryHandlerTraced, GetRequester, hauth, hquery]

theorem handlerTraced_engine_error (h : handlers) (ctx : Context)
    (req : CreateAlertstatequeryRequestBody) (user : Requester) (frame : Option Frame)
    (err : String) (hauth : ctx.requester = some user)
    (hquery : h.historian.Query ctx (buildQuery user req) = (frame, some err)) :
    (h.AlertStateQueryHandlerTraced ctx req).projection = none := by
  cases frame <;> simp [handlers.AlertStateQueryHandlerTraced, GetRequester, hauth, hquery]

/-! ## Claims on the failure paths -/

/-- C11: for an authenticated request whose engine call succeeds with a frame
of at least one row that has a column named "Line" but no column named "Time",
the handler returns the status error with code 500 and message "no Time field
found in historian query response", and a response without entries. -/
theorem AlertStateQueryHandler_missing_time (h : handlers) (ctx : Context)
    (req : CreateAlertstatequeryRequestBody) (user : Requester) (frame : Frame)
    (hauth : ctx.requester = some user)
    (hquery : h.historian.Query ctx (buildQuery user req) = (some frame, none))
    (hrows : 1 ≤ frame.Rows)
    (hline : ∃ field ∈ frame.Fields, field.Name = "Line")
    (htime : ∀ field ∈ frame.Fields, field.Name ≠ "Time") :
    (h.AlertStateQueryHandler ctx req).result =
      some ({ Entries := none },
        some { ErrStatus :=
          { Status := "Failure", Code := 500,
            Message := "no Time field found in historian query response" } }) := by
  rw [handler_engine_ok h ctx req user frame hauth hquery,
    project_no_time frame (by omega) ((FieldByName_nonneg_iff frame "Line").mpr hline)
      ((FieldByName_neg_iff frame "Time").mpr htime)]
  rfl

/-- Witness of C11: the frame of the test "returns error when Time field is
missing", one row and only a Line column. -/
theorem AlertStateQueryHandler_missing_time_witness :
    1 ≤ frameWithoutTime.Rows ∧
      (handlers.AlertStateQueryHandler { historian := mockHistorian frameWithoutTime }
        (contextWithOrg 1) NewCreateAlertstatequeryRequestBody).result =
      some ({ Entries := none },
        some { ErrStatus :=
          { Status := "Failure", Code := 500,
            Message := "no Time field found in historian query response" } }) :=
  ⟨by decide, AlertStateQueryHandler_missing_time
    { historian := mockHistorian frameWithoutTime }
    (contextWithOrg 1) NewCreateAlertstatequeryRequestBody
    { OrgID := 1, UserID := 0, Login := "" } frameWithoutTime rfl rfl (by decide)
    ⟨{ Name := "Line", cells := [Cell.string "test"] }, by simp [frameWithoutTime], rfl⟩
    (by simp [frameWithoutTime])⟩

/-- C12: for an authenticated request whose engine call returns an error with
text `e`, the handler returns the status error with code 500 and message
exactly `e` and a response without entries; the engine was called exactly once
(no retry) and no projection was run (no frame cell was read). -/
theorem AlertStateQueryHandler_engine_failure (h : handlers) (ctx : Context)
    (req : CreateAlertstatequeryRequestBody) (user : Requester) (frame : Option Frame)
    (e : String) (hauth : ctx.requester = some user)
    (hquery : h.historian.Query ctx (buildQuery user req) = (frame, some e)) :
    (h.AlertStateQueryHandler ctx req).result =
        some ({ Entries := none },
          some { ErrStatus := { Status := "Failure", Code := 500, Message := e } }) ∧
      (h.AlertStateQueryHandler ctx req).calls = [buildQuery user req] ∧
      (h.AlertStateQueryHandlerTraced ctx req).calls.length = 1 ∧
      (h.AlertStateQueryHandlerTraced ctx req).projection = none ∧
      (h.AlertStateQueryHandlerTraced ctx req).result =
        (h.AlertStateQueryHandler ctx req).result := by
  refine ⟨?_, handler_calls h ctx req user hauth, ?_,
    handlerTraced_engine_error h ctx req user frame e hauth hquery, handlerTraced_result h ctx req⟩
  · rw [handler_engine_error h ctx req user frame e hauth hquery]
    rfl
  · rw [handlerTraced_calls, handler_calls h ctx req user hauth]
    rfl

/-- Witness of C12: the engine of the test "returns internal error when
historian query fails". -/
theorem AlertStateQueryHandler_engine_failure_witness :
    (handlers.AlertStateQueryHandler
        { historian := failingHistorian "database connection failed" }
        (contextWithOrg 1) NewCreateAlertstatequeryRequestBody).result =
      some ({ Entries := none },
        some { ErrStatus :=
          { Status := "Failure", Code := 500, Message := "database connection failed" } }) :=
  (AlertStateQueryHandler_engine_failure
    { historian := failingHistorian "database connection failed" }
    (contextWithOrg 1) NewCreateAlertstatequeryRequestBody
    { OrgID := 1, UserID := 0, Login := "" } none "database connection failed" rfl rfl).1

/-! ## Where the loop stops -/

theorem rowWellTyped_iff (frame : Frame) (timeIdx lineIdx : Int) (row : Int) :
    rowWellTyped frame timeIdx lineIdx row = true ↔
      ∃ t s, frame.At timeIdx row = some (Cell.time t) ∧
        frame.At lineIdx row = some (Cell.string s) := by
  unfold rowWellTyped
  constructor
  · intro h
    split at h
    · next t s hT hL => exact ⟨t, s, hT, hL⟩
    · exact absurd h (by simp)
  · rintro ⟨t, s, hT, hL⟩
    simp [hT, hL]

theorem exists_first_false (p : Nat → Bool) :
    ∀ (n r : Nat), r < n → p r = false →
      ∃ k, k < n ∧ (∀ i, i < k → p i = true) ∧ p k = false := by
  intro n r hr hfalse
  have hex : ∃ k, p k = false := ⟨r, hfalse⟩
  refine ⟨Nat.find hex, ?_, ?_, Nat.find_spec hex⟩
  · exact lt_of_le_of_lt (Nat.find_min' hex hfalse) hr
  · intro i hi
    have := Nat.find_min hex hi
    simpa using this

theorem projectRowsTraced_at_time (frame : Frame) (timeIdx lineIdx : Int) :
    ∀ (k remaining row : Nat) (result : CreateAlertstatequery) (timeCell : Cell),
      k < remaining →
      (∀ i, i < k → rowWellTyped frame timeIdx lineIdx ((row + i : Nat) : Int) = true) →
      frame.At timeIdx ((row + k : Nat) : Int) = some timeCell → timeCell.asTime = none →
      projectRowsTraced frame timeIdx lineIdx remaining (row : Int) result =
        { reads := loopReads timeIdx lineIdx (row : Int) k ++ [(timeIdx, ((row + k : Nat) : Int))],
          iterations := k + 1,
          result := some ({ Entries := none }, some timeCellError) } := by
  intro k
  induction k with
  | zero =>
    intro remaining row result timeCell hk _ hT hTc
    obtain ⟨m, rfl⟩ : ∃ m, remaining = m + 1 := ⟨remaining - 1, by omega⟩
    simp only [Nat.add_zero] at hT
    simp [projectRowsTraced, hT, hTc, loopReads, timeCellError]
  | succ j ih =>
    intro remaining row result timeCell hk hgood hT hTc
    obtain ⟨m, rfl⟩ : ∃ m, remaining = m + 1 := ⟨remaining - 1, by omega⟩
    have hcast : ((row : Nat) : Int) + 1 = ((row + 1 : Nat) : Int) := by push_cast; rfl
    obtain ⟨t, s, h1, h2⟩ := (rowWellTyped_iff frame timeIdx lineIdx _).mp (hgood 0 (by omega))
    simp only [Nat.add_zero] at h1 h2
    have e : row + (j + 1) = row + 1 + j := by omega
    have hrest := fun res => ih m (row + 1) res timeCell (by omega)
      (fun i hi => by
        have := hgood (i + 1) (by omega)
        have e2 : row + (i + 1) = row + 1 + i := by omega
        rwa [e2] at this)
      (by rw [← e]; exact hT) hTc
    rw [projectRowsTraced]
    simp only [h1, h2, Cell.asTime, Cell.asString, hcast, hrest, loopReads, e]
    simp

theorem projectRowsTraced_at_line (frame : Frame) (timeIdx lineIdx : Int) :
    ∀ (k remaining row : Nat) (result : CreateAlertstatequery) (t : time.Time) (lineCell : Cell),
      k < remaining →
      (∀ i, i < k → rowWellTyped frame timeIdx lineIdx ((row + i : Nat) : Int) = true) →
      frame.At timeIdx ((row + k : Nat) : Int) = some (Cell.time t) →
      frame.At lineIdx ((row + k : Nat) : Int) = some lineCell → lineCell.asString = none →
      projectRowsTraced frame timeIdx lineIdx remaining (row : Int) result =
        { reads := loopReads timeIdx lineIdx (row : Int) k ++
            [(timeIdx, ((row + k : Nat) : Int)), (lineIdx, ((row + k : Nat) : Int))],
          iterations := k + 1,
          result := some ({ Entries := none }, some lineCellError) } := by
  intro k
  induction k with
  | zero =>
    intro remaining row result t lineCell hk _ hT hL hLc
    obtain ⟨m, rfl⟩ : ∃ m, remaining = m + 1 := ⟨remaining - 1, by omega⟩
    simp only [Nat.add_zero] at hT hL
    simp [projectRowsTraced, hT, hL, hLc, Cell.asTime, loopReads, lineCellError]
  | succ j ih =>
    intro remaining row result t lineCell hk hgood hT hL hLc
    obtain ⟨m, rfl⟩ : ∃ m, remaining = m + 1 := ⟨remaining - 1, by omega⟩
    have hcast : ((row : Nat) : Int) + 1 = ((row + 1 : Nat) : Int) := by push_cast; rfl
    obtain ⟨t0, s0, h1, h2⟩ := (rowWellTyped_iff frame timeIdx lineIdx _).mp (hgood 0 (by omega))
    simp only [Nat.add_zero] at h1 h2
    have e : row + (j + 1) = row + 1 + j := by omega
    have hrest := fun res => ih m (row + 1) res t lineCell (by omega)
      (fun i hi => by
        have := hgood (i + 1) (by omega)
        have e2 : row + (i + 1) = row + 1 + i := by omega
        rwa [e2] at this)
      (by rw [← e]; exact hT) (by rw [← e]; exact hL) hLc
    rw [projectRowsTraced]
    simp only [h1, h2, Cell.asTime, Cell.asString, hcast, hrest, loopReads, e]
    simp

theorem projectRowsTraced_all_rows (frame : Frame) (timeIdx lineIdx : Int) :
    ∀ (remaining row : Nat) (result : CreateAlertstatequery),
      (∀ i, i < remaining → rowWellTyped frame timeIdx lineIdx ((row + i : Nat) : Int) = true) →
      (projectRowsTraced frame timeIdx lineIdx remaining (row : Int) result).reads =
          loopReads timeIdx lineIdx (row : Int) remaining ∧
        (projectRowsTraced frame timeIdx lineIdx remaining (row : Int) result).iterations =
          remaining := by
  intro remaining
  induction remaining with
  | zero => intro row result _; simp [projectRowsTraced, loopReads]
  | succ m ih =>
    intro row result hgood
    have hcast : ((row : Nat) : Int) + 1 = ((row + 1 : Nat) : Int) := by push_cast; rfl
    obtain ⟨t, s, h1, h2⟩ := (rowWellTyped_iff frame timeIdx lineIdx _).mp (hgood 0 (by omega))
    simp only [Nat.add_zero] at h1 h2
    have hrest := fun res => ih (row + 1) res
      (fun i hi => by
        have := hgood (i + 1) (by omega)
        have e2 : row + (i + 1) = row + 1 + i := by omega
        rwa [e2] at this)
    rw [projectRowsTraced]
    simp only [h1, h2, Cell.asTime, Cell.asString, hcast, loopReads, (hrest _).1, (hrest _).2]
    simp

theorem mem_loopReads (timeIdx lineIdx : Int) :
    ∀ (count row : Nat) (p : Int × Int), p ∈ loopReads timeIdx lineIdx (row : Int) count →
      (p.1 = timeIdx ∨ p.1 = lineIdx) ∧ ∃ i, i < count ∧ p.2 = ((row + i : Nat) : Int) := by
  intro count
  induction count with
  | zero => intro row p hp; simp [loopReads] at hp
  | succ m ih =>
    intro row p hp
    have hcast : ((row : Nat) : Int) + 1 = ((row + 1 : Nat) : Int) := by push_cast; rfl
    simp only [loopReads, List.mem_cons, hcast] at hp
    rcases hp with hp | hp | hp
    · exact ⟨Or.inl (by rw [hp]), 0, by omega, by rw [hp]; rfl⟩
    · exact ⟨Or.inr (by rw [hp]), 0, by omega, by rw [hp]; rfl⟩
    · obtain ⟨hcol, i, hi, hrow⟩ := ih (row + 1) p hp
      exact ⟨hcol, i + 1, by omega, by rw [hrow]; congr 1; omega⟩

theorem project_rows_traced (frame : Frame) (hrows : 0 < frame.Rows)
    (hline : 0 ≤ (frame.FieldByName "Line").2) (htime : 0 ≤ (frame.FieldByName "Time").2) :
    projectTraced frame =
      projectRowsTraced frame (frame.FieldByName "Time").2 (frame.FieldByName "Line").2
        frame.Rows.toNat ((0 : Nat) : Int) { Entries := some [] } := by
  simp [projectTraced, not_le.mpr hrows, not_lt.mpr hline, not_lt.mpr htime]

theorem projectTraced_no_reads (frame : Frame)
    (hmissing : frame.Rows ≤ 0 ∨ (frame.FieldByName "Line").2 < 0 ∨
      (frame.FieldByName "Time").2 < 0) :
    (projectTraced frame).reads = [] ∧ (projectTraced frame).iterations = 0 := by
  unfold projectTraced
  by_cases hrows : frame.Rows ≤ 0
  · simp [hrows]
  · by_cases hline : (frame.FieldByName "Line").2 < 0
    · simp [hrows, hline]
    · by_cases htime : (frame.FieldByName "Time").2 < 0
      · simp [hrows, hline, htime]
      · rcases hmissing with h1 | h1 | h1
        · exact absurd h1 hrows
        · exact absurd h1 hline
        · exact absurd h1 htime

/-- C14: for an authenticated request whose engine call succeeds with a frame
of at least one row, the presence of the columns is decided before any cell is
read, Line first: without a column named "Line" the handler returns the "no
Line field found in historian query response" error, whether or not there is a
Time column and whatever the cells of the other columns are; with a Line column
but without a Time column it returns the "no Time field found in historian query
response" error, whatever the cells of the Line column are; in both cases no
cell was read, and whenever a cell was read both columns are present. -/
theorem AlertStateQueryHandler_schema_precedence (h : handlers) (ctx : Context)
    (req : CreateAlertstatequeryRequestBody) (user : Requester) (frame : Frame)
    (hauth : ctx.requester = some user)
    (hquery : h.historian.Query ctx (buildQuery user req) = (some frame, none))
    (hrows : 1 ≤ frame.Rows) :
    (h.AlertStateQueryHandlerTraced ctx req).projection = some (projectTraced frame) ∧
    ((∀ field ∈ frame.Fields, field.Name ≠ "Line") →
      (h.AlertStateQueryHandler ctx req).result =
        some ({ Entries := none },
          some { ErrStatus :=
            { Status := "Failure", Code := 500,
              Message := "no Line field found in historian query response" } }) ∧
      (projectTraced frame).reads = []) ∧
    ((∃ field ∈ frame.Fields, field.Name = "Line") →
      (∀ field ∈ frame.Fields, field.Name ≠ "Time") →
      (h.AlertStateQueryHandler ctx req).result =
        some ({ Entries := none },
          some { ErrStatus :=
            { Status := "Failure", Code := 500,
              Message := "no Time field found in historian query response" } }) ∧
      (projectTraced frame).reads = []) ∧
    ((projectTraced frame).reads ≠ [] →
      (∃ field ∈ frame.Fields, field.Name = "Line") ∧
      (∃ field ∈ frame.Fields, field.Name = "Time")) := by
  refine ⟨handlerTraced_engine_ok h ctx req user frame hauth hquery, ?_, ?_, ?_⟩
  · intro hline
    have hneg := (FieldByName_neg_iff frame "Line").mpr hline
    rw [handler_engine_ok h ctx req user frame hauth hquery,
      project_no_line frame (by omega) hneg]
    exact ⟨rfl, (projectTraced_no_reads frame (Or.inr (Or.inl hneg))).1⟩
  · intro hline htime
    have hneg := (FieldByName_neg_iff frame "Time").mpr htime
    rw [handler_engine_ok h ctx req user frame hauth hquery,
      project_no_time frame (by omega) ((FieldByName_nonneg_iff frame "Line").mpr hline) hneg]
    exact ⟨rfl, (projectTraced_no_reads frame (Or.inr (Or.inr hneg))).1⟩
  · intro hreads
    constructor
    · rw [← FieldByName_nonneg_iff]
      by_contra hneg
      exact hreads (projectTraced_no_reads frame (Or.inr (Or.inl (by omega)))).1
    · rw [← FieldByName_nonneg_iff]
      by_contra hneg
      exact hreads (projectTraced_no_reads frame (Or.inr (Or.inr (by omega)))).1

/-- Witness of C14: a one-row frame without a Line column whose Time column
holds a string; the missing column is reported and no cell is read. -/
theorem AlertStateQueryHandler_schema_precedence_witness :
    (handlers.AlertStateQueryHandler
        { historian := mockHistorian
            { Name := "test",
              Fields := [{ Name := "Time", cells := [Cell.string "not a time"] }] } }
        (contextWithOrg 1) NewCreateAlertstatequeryRequestBody).result =
      some ({ Entries := none },
        some { ErrStatus :=
          { Status := "Failure", Code := 500,
            Message := "no Line field found in historian query response" } }) ∧
    (projectTraced
      { Name := "test",
        Fields := [{ Name := "Time", cells := [Cell.string "not a time"] }] }).reads = [] :=
  (AlertStateQueryHandler_schema_precedence
    { historian := mockHistorian
        { Name := "test", Fields := [{ Name := "Time", cells := [Cell.string "not a time"] }] } }
    (contextWithOrg 1) NewCreateAlertstatequeryRequestBody
    { OrgID := 1, UserID := 0, Login := "" }
    { Name := "test", Fields := [{ Name := "Time", cells := [Cell.string "not a time"] }] }
    rfl rfl (by decide)).2.1 (by simp)

/-! ## Claims on the route invoker -/

/-- C15: when the request body decodes and the handler returns an error, the
route invoker returns that same error and leaves the response writer as it was
(no header, no status code, no body written); when the request body cannot be
decoded, it returns the status error with code 400 and the text of the decode
error, never calls the handler, and leaves the writer as it was. -/
theorem InvokeGetAlertStateHistoryHandler_errors (h : handlerInvoker) (json : JSONCodec)
    (ctx : Context) (writer : ResponseWriter) (request : CustomRouteRequest) :
    (∀ reqBody respBody err,
      json.decode request.Body = Except.ok reqBody →
      h.handlers.AlertStateQueryHandler ctx reqBody = some (respBody, some err) →
      (h.InvokeGetAlertStateHistoryHandler json ctx writer request).result = some (some err) ∧
      (h.InvokeGetAlertStateHistoryHandler json ctx writer request).writer = writer ∧
      (h.InvokeGetAlertStateHistoryHandler json ctx writer request).handlerCalls.length = 1) ∧
    (∀ text,
      json.decode request.Body = Except.error text →
      (h.InvokeGetAlertStateHistoryHandler json ctx writer request).result =
        some (some (GoError.status
          { ErrStatus := { Status := "Failure", Code := 400, Message := text } })) ∧
      (h.InvokeGetAlertStateHistoryHandler json ctx writer request).handlerCalls = [] ∧
      (h.InvokeGetAlertStateHistoryHandler json ctx writer request).writer = writer) := by
  constructor
  · intro reqBody respBody err hdecode hhandler
    simp [handlerInvoker.InvokeGetAlertStateHistoryHandler, hdecode, hhandler]
  · intro text hdecode
    simp [handlerInvoker.InvokeGetAlertStateHistoryHandler, hdecode, statusError,
      StatusFailure, StatusBadRequest]

/-- Witness of C15: the handler of `handlers.go` behind the invoker. Called
without a caller identity, its 401 error comes back unchanged and nothing is
written; with a body that does not decode, the 400 error carries the decode
error text and the handler is not called. -/
theorem InvokeGetAlertStateHistoryHandler_errors_witness :
    ((handlerInvoker.InvokeGetAlertStateHistoryHandler
        { handlers := handlers.toHandlers { historian := mockHistorian testFrame } }
        (stubCodec "unexpected end of JSON input" "")
        { requester := none } ResponseWriter.empty { Body := "{}" }).result =
      some (some (GoError.status
        (statusError StatusUnauthorized "authentication required"))) ∧
    (handlerInvoker.InvokeGetAlertStateHistoryHandler
        { handlers := handlers.toHandlers { historian := mockHistorian testFrame } }
        (stubCodec "unexpected end of JSON input" "")
        { requester := none } ResponseWriter.empty { Body := "{}" }).writer =
      ResponseWriter.empty) ∧
    ((handlerInvoker.InvokeGetAlertStateHistoryHandler
        { handlers := handlers.toHandlers { historian := mockHistorian testFrame } }
        (stubCodec "unexpected end of JSON input" "")
        (contextWithOrg 1) ResponseWriter.empty { Body := "" }).result =
      some (some (GoError.status
        { ErrStatus :=
          { Status := "Failure", Code := 400, Message := "unexpected end of JSON input" } })) ∧
    (handlerInvoker.InvokeGetAlertStateHistoryHandler
        { handlers := handlers.toHandlers { historian := mockHistorian testFrame } }
        (stubCodec "unexpected end of JSON input" "")
        (contextWithOrg 1) ResponseWriter.empty { Body := "" }).handlerCalls = []) :=
  have hw := (InvokeGetAlertStateHistoryHandler_errors
    { handlers := handlers.toHandlers { historian := mockHistorian testFrame } }
    (stubCodec "unexpected end of JSON input" "")
    { requester := none } ResponseWriter.empty { Body := "{}" }).1
    NewCreateAlertstatequeryRequestBody { Entries := none }
    (GoError.status (statusError StatusUnauthorized "authentication required"))
    (by simp [stubCodec]) (by rfl)
  have hd := (InvokeGetAlertStateHistoryHandler_errors
    { handlers := handlers.toHandlers { historian := mockHistorian testFrame } }
    (stubCodec "unexpected end of JSON input" "")
    (contextWithOrg 1) ResponseWriter.empty { Body := "" }).2
    "unexpected end of JSON input" (by simp [stubCodec])
  ⟨⟨hw.1, hw.2.1⟩, ⟨hd.1, hd.2.1⟩⟩

/-! ## Claims on absent and zero fields -/

theorem handler_eq_of_query_eq (h : handlers) (ctx : Context)
    (req1 req2 : CreateAlertstatequeryRequestBody)
    (hq : ∀ user, buildQuery user req1 = buildQuery user req2) :
    h.AlertStateQueryHandler ctx req1 = h.AlertStateQueryHandler ctx req2 := by
  unfold handlers.AlertStateQueryHandler
  cases GetRequester ctx with
  | error e => rfl
  | ok user => simp only [hq user]

theorem intOfInt64_zero : intOfInt64 0 = 0 := by
  simp [intOfInt64, wrapInt64]

/-- C17: for every caller identity and every request body, replacing an absent
ruleUID, dashboardUID, previous or current by a present empty string, or an
absent panelID or limit by a present 0, leaves the query built for the engine
unchanged, and with it the whole run of the handler: the engine is handed the
same query in both cases. -/
theorem buildQuery_absent_zero_collapse (user : Requester)
    (req : CreateAlertstatequeryRequestBody) (h : handlers) (ctx : Context) :
    (buildQuery user { req with RuleUID := none } =
        buildQuery user { req with RuleUID := some "" } ∧
      buildQuery user { req with DashboardUID := none } =
        buildQuery user { req with DashboardUID := some "" } ∧
      buildQuery user { req with Previous := none } =
        buildQuery user { req with Previous := some { val := "" } } ∧
      buildQuery user { req with Current := none } =
        buildQuery user { req with Current := some { val := "" } } ∧
      buildQuery user { req with PanelID := none } =
        buildQuery user { req with PanelID := some 0 } ∧
      buildQuery user { req with Limit := none } =
        buildQuery user { req with Limit := some 0 }) ∧
    (h.AlertStateQueryHandler ctx { req with RuleUID := none } =
        h.AlertStateQueryHandler ctx { req with RuleUID := some "" } ∧
      h.AlertStateQueryHandler ctx { req with DashboardUID := none } =
        h.AlertStateQueryHandler ctx { req with DashboardUID := some "" } ∧
      h.AlertStateQueryHandler ctx { req with Previous := none } =
        h.AlertStateQueryHandler ctx { req with Previous := some { val := "" } } ∧
      h.AlertStateQueryHandler ctx { req with Current := none } =
        h.AlertStateQueryHandler ctx { req with Current := some { val := "" } } ∧
      h.AlertStateQueryHandler ctx { req with PanelID := none } =
        h.AlertStateQueryHandler ctx { req with PanelID := some 0 } ∧
      h.AlertStateQueryHandler ctx { req with Limit := none } =
        h.AlertStateQueryHandler ctx { req with Limit := some 0 }) := by
  have hq : ∀ u : Requester,
      buildQuery u { req with RuleUID := none } =
        buildQuery u { req with RuleUID := some "" } ∧
      buildQuery u { req with DashboardUID := none } =
        buildQuery u { req with DashboardUID := some "" } ∧
      buildQuery u { req with Previous := none } =
        buildQuery u { req with Previous := some { val := "" } } ∧
      buildQuery u { req with Current := none } =
        buildQuery u { req with Current := some { val := "" } } ∧
      buildQuery u { req with PanelID := none } =
        buildQuery u { req with PanelID := some 0 } ∧
      buildQuery u { req with Limit := none } =
        buildQuery u { req with Limit := some 0 } := by
    intro u
    simp [buildQuery_eq, intOfInt64_zero]
  refine ⟨hq user, ?_, ?_, ?_, ?_, ?_, ?_⟩
  · exact handler_eq_of_query_eq h ctx _ _ (fun u => (hq u).1)
  · exact handler_eq_of_query_eq h ctx _ _ (fun u => (hq u).2.1)
  · exact handler_eq_of_query_eq h ctx _ _ (fun u => (hq u).2.2.1)
  · exact handler_eq_of_query_eq h ctx _ _ (fun u => (hq u).2.2.2.1)
  · exact handler_eq_of_query_eq h ctx _ _ (fun u => (hq u).2.2.2.2.1)
  · exact handler_eq_of_query_eq h ctx _ _ (fun u => (hq u).2.2.2.2.2)

/-- C18: for the time fields absent and present zero stay apart: with `from`
(respectively `to`) absent the query handed to the engine has the zero timestamp
in `From` (respectively `To`), with `from = 0` (respectively `to = 0`) it has
`time.Unix(0, 0)`, and these are different instants: the Unix epoch lies
62135596800 seconds after the zero timestamp. -/
theorem buildQuery_time_absent_vs_zero (user : Requester)
    (req : CreateAlertstatequeryRequestBody) (h : handlers) :
    (buildQuery user { req with From := none }).From = time.zero ∧
    (buildQuery user { req with From := some 0 }).From = time.Unix 0 0 ∧
    (buildQuery user { req with To := none }).To = time.zero ∧
    (buildQuery user { req with To := some 0 }).To = time.Unix 0 0 ∧
    (h.AlertStateQueryHandler { requester := some user } { req with From := none }).calls.map
      HistoryQuery.From = [time.zero] ∧
    (h.AlertStateQueryHandler { requester := some user } { req with From := some 0 }).calls.map
      HistoryQuery.From = [time.Unix 0 0] ∧
    (h.AlertStateQueryHandler { requester := some user } { req with To := none }).calls.map
      HistoryQuery.To = [time.zero] ∧
    (h.AlertStateQueryHandler { requester := some user } { req with To := some 0 }).calls.map
      HistoryQuery.To = [time.Unix 0 0] ∧
    time.Unix 0 0 ≠ time.zero ∧
    (time.Unix 0 0).Equal time.zero = false ∧
    (time.Unix 0 0).Unix = 0 ∧ time.zero.Unix = -62135596800 := by
  have hne : time.Unix 0 0 ≠ time.zero := by
    simp [time.Unix, time.zero]
  have hequal : (time.Unix 0 0).Equal time.zero = false := by
    simp [time.Time.Equal, time.Unix, time.zero, time.unixToInternal, wrapInt64]
  have hunix : (time.Unix 0 0).Unix = 0 := (Unix_sec_roundtrip 0 (by simp [isInt64])).1
  have hzero : time.zero.Unix = -62135596800 := by
    simp [time.Time.Unix, time.zero, time.internalToUnix, time.unixToInternal, wrapInt64]
  refine ⟨by simp [buildQuery_eq], by simp [buildQuery_eq], by simp [buildQuery_eq],
    by simp [buildQuery_eq], ?_, ?_, ?_, ?_, hne, hequal, hunix, hzero⟩
  · simp [handler_calls h _ _ user rfl, buildQuery_eq]
  · simp [handler_calls h _ _ user rfl, buildQuery_eq]
  · simp [handler_calls h _ _ user rfl, buildQuery_eq]
  · simp [handler_calls h _ _ user rfl, buildQuery_eq]

/-! ## Exact characterisation of success -/

theorem projectRows_good (frame : Frame) (timeIdx lineIdx : Int) :
    ∀ (remaining row : Nat) (result : CreateAlertstatequery),
      (∀ i, i < remaining → rowWellTyped frame timeIdx lineIdx ((row + i : Nat) : Int) = true) →
      ∃ resp, projectRows frame timeIdx lineIdx remaining (row : Int) result =
        some (resp, none) := by
  intro remaining
  induction remaining with
  | zero => intro row result _; exact ⟨result, rfl⟩
  | succ m ih =>
    intro row result hgood
    have hcast : ((row : Nat) : Int) + 1 = ((row + 1 : Nat) : Int) := by push_cast; rfl
    obtain ⟨t, s, h1, h2⟩ := (rowWellTyped_iff frame timeIdx lineIdx _).mp (hgood 0 (by omega))
    simp only [Nat.add_zero] at h1 h2
    rw [projectRows]
    simp only [h1, h2, Cell.asTime, Cell.asString, hcast]
    exact ih (row + 1) _ (fun i hi => by
      have := hgood (i + 1) (by omega)
      have e2 : row + (i + 1) = row + 1 + i := by omega
      rwa [e2] at this)

/-! ## Bounds of the cell reads -/

theorem fieldByNameFrom_some (fieldName : String) :
    ∀ (fields : List Field) (i : Nat) (field : Field),
      (fieldByNameFrom fieldName fields i).1 = some field →
      ∃ k, k < fields.length ∧ fields.get? k = some field ∧
        (fieldByNameFrom fieldName fields i).2 = ((i + k : Nat) : Int) := by
  intro fields
  induction fields with
  | nil => intro i field hf; simp [fieldByNameFrom] at hf
  | cons first rest ih =>
    intro i field hf
    by_cases hname : first.Name = fieldName
    · simp only [fieldByNameFrom, hname, if_true, Option.some.injEq] at hf
      exact ⟨0, by simp, by simp [hf], by simp [fieldByNameFrom, hname]⟩
    · simp only [fieldByNameFrom, hname, if_false] at hf
      obtain ⟨k, hk, hget, hidx⟩ := ih (i + 1) field hf
      refine ⟨k + 1, by simp; omega, by simpa using hget, ?_⟩
      simp only [fieldByNameFrom, hname, if_false, hidx]
      congr 1
      omega

theorem FieldByName_At (frame : Frame) (fieldName : String) (field : Field)
    (hfield : (frame.FieldByName fieldName).1 = some field) :
    0 ≤ (frame.FieldByName fieldName).2 ∧
      (frame.FieldByName fieldName).2 < (frame.Fields.length : Int) ∧
      ∀ row : Nat, frame.At (frame.FieldByName fieldName).2 (row : Int) = field.cells.get? row := by
  obtain ⟨k, hk, hget, hidx⟩ := fieldByNameFrom_some fieldName frame.Fields 0 field hfield
  have hidx2 : (frame.FieldByName fieldName).2 = (k : Int) := by
    simpa [Frame.FieldByName] using hidx
  refine ⟨by rw [hidx2]; omega, by rw [hidx2]; omega, ?_⟩
  intro row
  rw [hidx2]
  have hnot : ¬ ((k : Int) < 0 ∨ (row : Int) < 0) := by omega
  simp only [Frame.At, hnot, if_false, Int.toNat_ofNat, hget]

/-- C19: for an authenticated request whose engine call succeeds with a frame
of `n > 0` rows whose Line and Time columns both hold at least `n` cells, the
projection returns (it does not panic), its loop runs exactly `n` iterations
when every row is well typed and otherwise stops in the iteration of the first
malformed row `r < n`, after `r + 1` iterations, and every cell read is made at
the index of the Time or of the Line column as returned by the lookup by name,
an index of an existing column, and at a row index in `[0, n)`, where the column
holds a cell. -/
theorem AlertStateQueryHandler_loop_bounds (h : handlers) (ctx : Context)
    (req : CreateAlertstatequeryRequestBody) (user : Requester) (frame : Frame) (n : Nat)
    (lineField timeField : Field)
    (hauth : ctx.requester = some user)
    (hquery : h.historian.Query ctx (buildQuery user req) = (some frame, none))
    (hrows : frame.Rows = (n : Int)) (hpos : 0 < n)
    (hline : (frame.FieldByName "Line").1 = some lineField) (hlineLen : n ≤ lineField.Len)
    (htime : (frame.FieldByName "Time").1 = some timeField) (htimeLen : n ≤ timeField.Len) :
    ∃ trace : ProjectionTrace,
      (h.AlertStateQueryHandlerTraced ctx req).projection = some trace ∧
      trace.result = (h.AlertStateQueryHandler ctx req).result ∧
      trace.result ≠ none ∧
      ((trace.iterations = n ∧
          ∀ i, i < n →
            rowWellTyped frame (frame.FieldByName "Time").2 (frame.FieldByName "Line").2
              (i : Int) = true) ∨
        ∃ r, r < n ∧
          (∀ i, i < r →
            rowWellTyped frame (frame.FieldByName "Time").2 (frame.FieldByName "Line").2
              (i : Int) = true) ∧
          rowWellTyped frame (frame.FieldByName "Time").2 (frame.FieldByName "Line").2
            (r : Int) = false ∧
          trace.iterations = r + 1) ∧
      ∀ p ∈ trace.reads,
        (p.1 = (frame.FieldByName "Time").2 ∨ p.1 = (frame.FieldByName "Line").2) ∧
        0 ≤ p.1 ∧ p.1 < (frame.Fields.length : Int) ∧
        0 ≤ p.2 ∧ p.2 < (n : Int) ∧ (frame.At p.1 p.2).isSome = true := by
  obtain ⟨hT0, hTlen, hTat⟩ := FieldByName_At frame "Time" timeField htime
  obtain ⟨hL0, hLlen, hLat⟩ := FieldByName_At frame "Line" lineField hline
  have htrace : projectTraced frame =
      projectRowsTraced frame (frame.FieldByName "Time").2 (frame.FieldByName "Line").2 n
        ((0 : Nat) : Int) { Entries := some [] } := by
    rw [project_rows_traced frame (by omega) hL0 hT0, hrows, Int.toNat_ofNat]
  have hcellT : ∀ i, i < n → ∃ c, frame.At (frame.FieldByName "Time").2 (i : Int) = some c := by
    intro i hi
    rw [hTat i]
    cases hc : timeField.cells.get? i with
    | none =>
      have := List.get?_eq_none.mp hc
      simp only [Field.Len] at htimeLen
      omega
    | some c => exact ⟨c, rfl⟩
  have hcellL : ∀ i, i < n → ∃ c, frame.At (frame.FieldByName "Line").2 (i : Int) = some c := by
    intro i hi
    rw [hLat i]
    cases hc : lineField.cells.get? i with
    | none =>
      have := List.get?_eq_none.mp hc
      simp only [Field.Len] at hlineLen
      omega
    | some c => exact ⟨c, rfl⟩
  have hin : ∀ (p : Int × Int) (i : Nat), i < n →
      (p.1 = (frame.FieldByName "Time").2 ∨ p.1 = (frame.FieldByName "Line").2) →
      p.2 = (i : Int) →
      (p.1 = (frame.FieldByName "Time").2 ∨ p.1 = (frame.FieldByName "Line").2) ∧
        0 ≤ p.1 ∧ p.1 < (frame.Fields.length : Int) ∧
        0 ≤ p.2 ∧ p.2 < (n : Int) ∧ (frame.At p.1 p.2).isSome = true := by
    intro p i hi hcol hrow
    refine ⟨hcol, ?_, ?_, by omega, by omega, ?_⟩
    · rcases hcol with hc | hc <;> rw [hc] <;> assumption
    · rcases hcol with hc | hc <;> rw [hc] <;> assumption
    · rcases hcol with hc | hc
      · obtain ⟨c, hcell⟩ := hcellT i hi
        rw [hc, hrow, hcell]; rfl
      · obtain ⟨c, hcell⟩ := hcellL i hi
        rw [hc, hrow, hcell]; rfl
  refine ⟨projectTraced frame, handlerTraced_engine_ok h ctx req user frame hauth hquery, ?_, ?_⟩
  · rw [projectTraced_result, handler_engine_ok h ctx req user frame hauth hquery]
  · rw [htrace]
    by_cases hall : ∀ i, i < n →
        rowWellTyped frame (frame.FieldByName "Time").2 (frame.FieldByName "Line").2
          (i : Int) = true
    · have hall0 : ∀ i, i < n →
          rowWellTyped frame (frame.FieldByName "Time").2 (frame.FieldByName "Line").2
            ((0 + i : Nat) : Int) = true := by
        intro i hi
        simpa using hall i hi
      obtain ⟨hreads, hiter⟩ := projectRowsTraced_all_rows frame _ _ n 0
        { Entries := some [] } hall0
      obtain ⟨resp, hresp⟩ := projectRows_good frame _ _ n 0 { Entries := some [] } hall0
      refine ⟨?_, Or.inl ⟨hiter, hall⟩, ?_⟩
      · rw [projectRowsTraced_result, hresp]
        simp
      · intro p hp
        rw [hreads] at hp
        obtain ⟨hcol, i, hi, hrow⟩ := mem_loopReads _ _ n 0 p hp
        exact hin p i hi hcol (by simpa using hrow)
    · push_neg at hall
      obtain ⟨r0, hr0, hbad0⟩ := hall
      obtain ⟨r, hr, hfirst, hbad⟩ := exists_first_false
        (fun i => rowWellTyped frame (frame.FieldByName "Time").2 (frame.FieldByName "Line").2
          (i : Int)) n r0 hr0 (by simpa using hbad0)
      have hfirst0 : ∀ i, i < r →
          rowWellTyped frame (frame.FieldByName "Time").2 (frame.FieldByName "Line").2
            ((0 + i : Nat) : Int) = true := by
        intro i hi
        simpa using hfirst i hi
      obtain ⟨timeCell, hTc⟩ := hcellT r hr
      obtain ⟨lineCell, hLc⟩ := hcellL r hr
      cases hasT : timeCell.asTime with
      | none =>
        rw [projectRowsTraced_at_time frame _ _ r n 0 _ timeCell hr hfirst0
          (by simpa using hTc) hasT]
        refine ⟨by simp, Or.inr ⟨r, hr, hfirst, hbad, rfl⟩, ?_⟩
        intro p hp
        simp only [List.mem_append, List.mem_singleton] at hp
        rcases hp with hp | hp
        · obtain ⟨hcol, i, hi, hrow⟩ := mem_loopReads _ _ r 0 p hp
          exact hin p i (by omega) hcol (by simpa using hrow)
        · exact hin p r hr (Or.inl (by rw [hp])) (by rw [hp]; simp)
      | some t =>
        have htc : timeCell = Cell.time t := by
          cases timeCell <;> simp_all [Cell.asTime]
        have hasL : lineCell.asString = none := by
          cases hs : lineCell.asString with
          | none => rfl
          | some s =>
            have hlc : lineCell = Cell.string s := by
              cases lineCell <;> simp_all [Cell.asString]
            have hgood := (rowWellTyped_iff frame (frame.FieldByName "Time").2
              (frame.FieldByName "Line").2 (r : Int)).mpr
                ⟨t, s, by rw [hTc, htc], by rw [hLc, hlc]⟩
            rw [hgood] at hbad
            exact absurd hbad (by simp)
        rw [projectRowsTraced_at_line frame _ _ r n 0 _ t lineCell hr hfirst0
          (by simpa [htc] using hTc) (by simpa using hLc) hasL]
        refine ⟨by simp, Or.inr ⟨r, hr, hfirst, hbad, rfl⟩, ?_⟩
        intro p hp
        simp only [List.mem_append, List.mem_cons, List.mem_singleton, List.not_mem_nil,
          or_false] at hp
        rcases hp with hp | hp | hp
        · obtain ⟨hcol, i, hi, hrow⟩ := mem_loopReads _ _ r 0 p hp
          exact hin p i (by omega) hcol (by simpa using hrow)
        · exact hin p r hr (Or.inl (by rw [hp])) (by rw [hp]; simp)
        · exact hin p r hr (Or.inr (by rw [hp])) (by rw [hp]; simp)

/-- Witness of C19: the two-row frame of the test suite; both columns hold two
cells. -/
theorem AlertStateQueryHandler_loop_bounds_witness :
    ∃ trace : ProjectionTrace,
      (handlers.AlertStateQueryHandlerTraced { historian := mockHistorian testFrame }
        (contextWithOrg 123) NewCreateAlertstatequeryRequestBody).projection = some trace ∧
      trace.result ≠ none ∧
      ∀ p ∈ trace.reads, 0 ≤ p.2 ∧ p.2 < (2 : Int) ∧ (testFrame.At p.1 p.2).isSome = true := by
  obtain ⟨trace, hproj, _, hres, _, hreads⟩ :=
    AlertStateQueryHandler_loop_bounds { historian := mockHistorian testFrame }
      (contextWithOrg 123) NewCreateAlertstatequeryRequestBody
      { OrgID := 123, UserID := 0, Login := "" } testFrame 2
      { Name := "Line", cells := [Cell.string "alert fired", Cell.string "alert resolved"] }
      { Name := "Time", cells := [Cell.time testNow, Cell.time testNowPlusSecond] }
      rfl rfl rfl (by decide)
      (by simp [testFrame, Frame.FieldByName, fieldByNameFrom]) (by simp [Field.Len])
      (by simp [testFrame, Frame.FieldByName, fieldByNameFrom]) (by simp [Field.Len])
  exact ⟨trace, hproj, hres, fun p hp =>
    ⟨(hreads p hp).2.2.2.1, (hreads p hp).2.2.2.2.1, (hreads p hp).2.2.2.2.2⟩⟩

/-! ## The first row that is not well typed -/

theorem rowPanics_false_cases (frame : Frame) (timeIdx lineIdx : Int) (row : Int)
    (hbad : rowWellTyped frame timeIdx lineIdx row = false)
    (hread : rowPanics frame timeIdx lineIdx row = false) :
    (∃ timeCell, frame.At timeIdx row = some timeCell ∧ timeCell.asTime = none) ∨
      ∃ t lineCell, frame.At timeIdx row = some (Cell.time t) ∧
        frame.At lineIdx row = some lineCell ∧ lineCell.asString = none := by
  unfold rowPanics at hread
  cases hT : frame.At timeIdx row with
  | none => simp [hT] at hread
  | some timeCell =>
    cases hTc : timeCell.asTime with
    | none => exact Or.inl ⟨timeCell, rfl, hTc⟩
    | some t =>
      have htc : timeCell = Cell.time t := by
        cases timeCell <;> simp_all [Cell.asTime]
      cases hL : frame.At lineIdx row with
      | none => simp [hT, hTc, hL] at hread
      | some lineCell =>
        cases hLc : lineCell.asString with
        | none => exact Or.inr ⟨t, lineCell, by rw [htc], rfl, hLc⟩
        | some s =>
          have hlc : lineCell = Cell.string s := by
            cases lineCell <;> simp_all [Cell.asString]
          have hgood := (rowWellTyped_iff frame timeIdx lineIdx row).mpr
            ⟨t, s, by rw [hT, htc], by rw [hL, hlc]⟩
          rw [hgood] at hbad
          exact absurd hbad (by simp)

theorem rowPanics_not_wellTyped (frame : Frame) (timeIdx lineIdx : Int) (row : Int)
    (hread : rowPanics frame timeIdx lineIdx row = true) :
    rowWellTyped frame timeIdx lineIdx row = false := by
  cases hgood : rowWellTyped frame timeIdx lineIdx row with
  | false => rfl
  | true =>
    obtain ⟨t, s, hT, hL⟩ := (rowWellTyped_iff frame timeIdx lineIdx row).mp hgood
    simp [rowPanics, hT, hL, Cell.asTime] at hread

theorem projectRows_at_missing (frame : Frame) (timeIdx lineIdx : Int) :
    ∀ (k remaining row : Nat) (result : CreateAlertstatequery),
      k < remaining →
      (∀ i, i < k → rowWellTyped frame timeIdx lineIdx ((row + i : Nat) : Int) = true) →
      rowPanics frame timeIdx lineIdx ((row + k : Nat) : Int) = true →
      projectRows frame timeIdx lineIdx remaining (row : Int) result = none := by
  intro k
  induction k with
  | zero =>
    intro remaining row result hk _ hread
    obtain ⟨m, rfl⟩ : ∃ m, remaining = m + 1 := ⟨remaining - 1, by omega⟩
    simp only [Nat.add_zero] at hread
    unfold rowPanics at hread
    rw [projectRows]
    cases hT : frame.At timeIdx (row : Int) with
    | none => rfl
    | some timeCell =>
      cases hTc : timeCell.asTime with
      | none => simp [hT, hTc] at hread
      | some t =>
        cases hL : frame.At lineIdx (row : Int) with
        | none => simp only [hTc]
        | some lineCell => simp [hT, hTc, hL] at hread
  | succ j ih =>
    intro remaining row result hk hgood hread
    obtain ⟨m, rfl⟩ : ∃ m, remaining = m + 1 := ⟨remaining - 1, by omega⟩
    have hcast : ((row : Nat) : Int) + 1 = ((row + 1 : Nat) : Int) := by push_cast; rfl
    obtain ⟨t, s, h1, h2⟩ := (rowWellTyped_iff frame timeIdx lineIdx _).mp (hgood 0 (by omega))
    simp only [Nat.add_zero] at h1 h2
    have e : row + (j + 1) = row + 1 + j := by omega
    have hrest := fun res => ih m (row + 1) res (by omega)
      (fun i hi => by
        have := hgood (i + 1) (by omega)
        have e2 : row + (i + 1) = row + 1 + i := by omega
        rwa [e2] at this)
      (by rw [← e]; exact hread)
    rw [projectRows]
    simp only [h1, h2, Cell.asTime, Cell.asString, hcast, hrest]

theorem projectRows_at_wrong_type (frame : Frame) (timeIdx lineIdx : Int)
    (k remaining : Nat) (result : CreateAlertstatequery) (hk : k < remaining)
    (hgood : ∀ i, i < k → rowWellTyped frame timeIdx lineIdx (i : Int) = true)
    (hbad : rowWellTyped frame timeIdx lineIdx (k : Int) = false)
    (hread : rowPanics frame timeIdx lineIdx (k : Int) = false) :
    ∃ err : StatusError,
      projectRows frame timeIdx lineIdx remaining ((0 : Nat) : Int) result =
        some ({ Entries := none }, some err) ∧
      (err = timeCellError ∨ err = lineCellError) := by
  have hgood0 : ∀ i, i < k →
      rowWellTyped frame timeIdx lineIdx ((0 + i : Nat) : Int) = true := by
    intro i hi
    simpa using hgood i hi
  rcases rowPanics_false_cases frame timeIdx lineIdx (k : Int) hbad hread with
    ⟨timeCell, hT, hTc⟩ | ⟨t, lineCell, hT, hL, hLc⟩
  · refine ⟨timeCellError, ?_, Or.inl rfl⟩
    rw [← projectRowsTraced_result, projectRowsTraced_at_time frame _ _ k remaining 0 result
      timeCell hk hgood0 (by simpa using hT) hTc]
  · refine ⟨lineCellError, ?_, Or.inr rfl⟩
    rw [← projectRowsTraced_result, projectRowsTraced_at_line frame _ _ k remaining 0 result
      t lineCell hk hgood0 (by simpa using hT) (by simpa using hL) hLc]

/-! ## Claims on malformed cells -/

/-- C3, as amended: for an authenticated request whose engine call succeeds
with a frame of `n > 0` rows that has both the Line and the Time column, and in
which every cell the loop reads exists (in each row all of whose predecessors
are well typed the Time cell exists and, when it is a timestamp, the Line cell
exists), if at some row `r < n` (first, middle or last) the Time cell is not a
timestamp or the Line cell is not a string, the handler returns a status error
with code 500 and a response whose entries are absent: nothing projected from
the rows before the malformed one is returned. -/
theorem AlertStateQueryHandler_fail_closed (h : handlers) (ctx : Context)
    (req : CreateAlertstatequeryRequestBody) (user : Requester) (frame : Frame) (n r : Nat)
    (hauth : ctx.requester = some user)
    (hquery : h.historian.Query ctx (buildQuery user req) = (some frame, none))
    (hrows : frame.Rows = (n : Int)) (hr : r < n)
    (hline : ∃ field ∈ frame.Fields, field.Name = "Line")
    (htime : ∃ field ∈ frame.Fields, field.Name = "Time")
    (hreads : ∀ i, i < n →
      (∀ j, j < i →
        rowWellTyped frame (frame.FieldByName "Time").2 (frame.FieldByName "Line").2
          (j : Int) = true) →
      rowPanics frame (frame.FieldByName "Time").2 (frame.FieldByName "Line").2
        (i : Int) = false)
    (hbad : (∀ t, frame.At (frame.FieldByName "Time").2 (r : Int) ≠ some (Cell.time t)) ∨
      (∀ s, frame.At (frame.FieldByName "Line").2 (r : Int) ≠ some (Cell.string s))) :
    ∃ err : StatusError,
      (h.AlertStateQueryHandler ctx req).result = some ({ Entries := none }, some err) ∧
      err.ErrStatus.Code = 500 ∧ err.ErrStatus.Status = "Failure" := by
  have hL := (FieldByName_nonneg_iff frame "Line").mpr hline
  have hT := (FieldByName_nonneg_iff frame "Time").mpr htime
  have hrbad : rowWellTyped frame (frame.FieldByName "Time").2 (frame.FieldByName "Line").2
      (r : Int) = false := by
    cases hgood : rowWellTyped frame (frame.FieldByName "Time").2 (frame.FieldByName "Line").2
        (r : Int) with
    | false => rfl
    | true =>
      obtain ⟨t, s, h1, h2⟩ := (rowWellTyped_iff frame _ _ _).mp hgood
      rcases hbad with hb | hb
      · exact absurd h1 (hb t)
      · exact absurd h2 (hb s)
  obtain ⟨k, hk, hfirst, hkbad⟩ := exists_first_false
    (fun i => rowWellTyped frame (frame.FieldByName "Time").2 (frame.FieldByName "Line").2
      (i : Int)) n r hr hrbad
  obtain ⟨err, hres, herr⟩ := projectRows_at_wrong_type frame _ _ k n { Entries := some [] } hk
    hfirst hkbad (hreads k hk hfirst)
  rw [handler_engine_ok h ctx req user frame hauth hquery,
    project_rows frame (by omega) hL hT, hrows, Int.toNat_ofNat]
  refine ⟨err, hres, ?_, ?_⟩
  · rcases herr with herr | herr <;> rw [herr] <;> rfl
  · rcases herr with herr | herr <;> rw [herr] <;> rfl

/-- Witness of C3: a three-row frame whose row 0 is well typed and whose row 1
has a float in the Line column; the Line column has no third cell, which the
loop never reads. The entry projected from row 0 is not returned. -/
theorem AlertStateQueryHandler_fail_closed_witness :
    ∃ err : StatusError,
      (handlers.AlertStateQueryHandler { historian := mockHistorian frameWithBadSecondLine }
        (contextWithOrg 1) NewCreateAlertstatequeryRequestBody).result =
          some ({ Entries := none }, some err) ∧
      err.ErrStatus.Code = 500 ∧ err.ErrStatus.Status = "Failure" :=
  AlertStateQueryHandler_fail_closed { historian := mockHistorian frameWithBadSecondLine }
    (contextWithOrg 1) NewCreateAlertstatequeryRequestBody
    { OrgID := 1, UserID := 0, Login := "" } frameWithBadSecondLine 3 1
    rfl rfl rfl (by decide)
    ⟨{ Name := "Line", cells := [Cell.string "alert fired", Cell.float64 0x3FF0000000000000] },
      by simp [frameWithBadSecondLine], rfl⟩
    ⟨{ Name := "Time",
       cells := [Cell.time testNow, Cell.time testNowPlusSecond, Cell.time testNowPlusSecond] },
      by simp [frameWithBadSecondLine], rfl⟩
    (by
      intro i hi hprev
      interval_cases i
      · simp [rowPanics, frameWithBadSecondLine, Frame.At, Frame.FieldByName, fieldByNameFrom,
          Cell.asTime]
      · simp [rowPanics, frameWithBadSecondLine, Frame.At, Frame.FieldByName, fieldByNameFrom,
          Cell.asTime]
      · have h1 := hprev 1 (by decide)
        simp [rowWellTyped, frameWithBadSecondLine, Frame.At, Frame.FieldByName,
          fieldByNameFrom] at h1)
    (Or.inr (by
      intro s
      simp [frameWithBadSecondLine, Frame.At, Frame.FieldByName, fieldByNameFrom]))

/-- Counterexample to C3 as stated: the one-row frame `frameWithEmptyTime` is not
empty and has both columns, and the Line cell of row 0 is not a string, yet the
handler does not return a status error: reading the Time cell of row 0 is out
of range and the handler panics. -/
theorem AlertStateQueryHandler_fail_closed_counterexample :
    0 < frameWithEmptyTime.Rows ∧
    (∃ field ∈ frameWithEmptyTime.Fields, field.Name = "Line") ∧
    (∃ field ∈ frameWithEmptyTime.Fields, field.Name = "Time") ∧
    (∃ lineCell, frameWithEmptyTime.At (frameWithEmptyTime.FieldByName "Line").2 0 =
      some lineCell ∧ lineCell.asString = none) ∧
    (handlers.AlertStateQueryHandler { historian := mockHistorian frameWithEmptyTime }
      (contextWithOrg 1) NewCreateAlertstatequeryRequestBody).result = none ∧
    ¬ ∃ resp err,
      (handlers.AlertStateQueryHandler { historian := mockHistorian frameWithEmptyTime }
        (contextWithOrg 1) NewCreateAlertstatequeryRequestBody).result =
          some (resp, some err) := by
  have hres : (handlers.AlertStateQueryHandler { historian := mockHistorian frameWithEmptyTime }
      (contextWithOrg 1) NewCreateAlertstatequeryRequestBody).result = none := by
    simp [handlers.AlertStateQueryHandler, GetRequester, contextWithOrg, mockHistorian,
      project, frameWithEmptyTime, Frame.Rows, Field.Len, Frame.FieldByName, fieldByNameFrom,
      projectRows, Frame.At]
  refine ⟨by decide, ?_, ?_, ?_, hres, ?_⟩
  · exact ⟨{ Name := "Line", cells := [Cell.float64 0x3FF0000000000000] },
      by simp [frameWithEmptyTime], rfl⟩
  · exact ⟨{ Name := "Time", cells := [] }, by simp [frameWithEmptyTime], rfl⟩
  · exact ⟨Cell.float64 0x3FF0000000000000,
      by simp [frameWithEmptyTime, Frame.At, Frame.FieldByName, fieldByNameFrom], rfl⟩
  · rw [hres]
    simp

/-- C13, as amended: for an authenticated request whose engine call succeeds
with a frame of `n > 0` rows that has both columns, let `r < n` be a row all of
whose predecessors are well typed (their Time cells are timestamps and their
Line cells strings). If the Time cell of row `r` exists and is not a timestamp,
the handler returns the status error 500 "log Time field not a time.Time in
historian query response", whatever the Line cell of row `r` is and whether it
exists or not; if the Time cell of row `r` is a timestamp and its Line cell
exists and is not a string, the handler returns the status error 500 "log Line
field not a string in historian query response". -/
theorem AlertStateQueryHandler_wrong_type_message (h : handlers) (ctx : Context)
    (req : CreateAlertstatequeryRequestBody) (user : Requester) (frame : Frame) (n r : Nat)
    (hauth : ctx.requester = some user)
    (hquery : h.historian.Query ctx (buildQuery user req) = (some frame, none))
    (hrows : frame.Rows = (n : Int)) (hr : r < n)
    (hline : ∃ field ∈ frame.Fields, field.Name = "Line")
    (htime : ∃ field ∈ frame.Fields, field.Name = "Time")
    (hfirst : ∀ i, i < r →
      rowWellTyped frame (frame.FieldByName "Time").2 (frame.FieldByName "Line").2 (i : Int) =
        true) :
    (∀ timeCell,
      frame.At (frame.FieldByName "Time").2 (r : Int) = some timeCell →
      timeCell.asTime = none →
      (h.AlertStateQueryHandler ctx req).result =
        some ({ Entries := none },
          some { ErrStatus :=
            { Status := "Failure", Code := 500,
              Message := "log Time field not a time.Time in historian query response" } })) ∧
    (∀ t lineCell,
      frame.At (frame.FieldByName "Time").2 (r : Int) = some (Cell.time t) →
      frame.At (frame.FieldByName "Line").2 (r : Int) = some lineCell →
      lineCell.asString = none →
      (h.AlertStateQueryHandler ctx req).result =
        some ({ Entries := none },
          some { ErrStatus :=
            { Status := "Failure", Code := 500,
              Message := "log Line field not a string in historian query response" } })) := by
  have hL0 := (FieldByName_nonneg_iff frame "Line").mpr hline
  have hT0 := (FieldByName_nonneg_iff frame "Time").mpr htime
  have hres : (h.AlertStateQueryHandler ctx req).result =
      (projectRowsTraced frame (frame.FieldByName "Time").2 (frame.FieldByName "Line").2 n
        ((0 : Nat) : Int) { Entries := some [] }).result := by
    rw [handler_engine_ok h ctx req user frame hauth hquery, ← projectTraced_result,
      project_rows_traced frame (by omega) hL0 hT0, hrows, Int.toNat_ofNat]
  have hfirst0 : ∀ i, i < r →
      rowWellTyped frame (frame.FieldByName "Time").2 (frame.FieldByName "Line").2
        ((0 + i : Nat) : Int) = true := by
    intro i hi
    simpa using hfirst i hi
  constructor
  · intro timeCell hT hTc
    rw [hres, projectRowsTraced_at_time frame _ _ r n 0 _ timeCell hr hfirst0
      (by simpa using hT) hTc]
    rfl
  · intro t lineCell hT hL hLc
    rw [hres, projectRowsTraced_at_line frame _ _ r n 0 _ t lineCell hr hfirst0
      (by simpa using hT) (by simpa using hL) hLc]
    rfl

/-- Witness of C13, both branches at row 1 after a well typed row 0: in
`frameWithBadSecondTime` the Time cell of row 1 is a string and the Line column
has no cell in row 1, the Time message is returned; in `frameWithBadSecondLine`
the Time cell of row 1 is a timestamp and the Line cell a float, the Line
message is returned. -/
theorem AlertStateQueryHandler_wrong_type_message_witness :
    (handlers.AlertStateQueryHandler { historian := mockHistorian frameWithBadSecondTime }
        (contextWithOrg 1) NewCreateAlertstatequeryRequestBody).result =
      some ({ Entries := none },
        some { ErrStatus :=
          { Status := "Failure", Code := 500,
            Message := "log Time field not a time.Time in historian query response" } }) ∧
    (handlers.AlertStateQueryHandler { historian := mockHistorian frameWithBadSecondLine }
        (contextWithOrg 1) NewCreateAlertstatequeryRequestBody).result =
      some ({ Entries := none },
        some { ErrStatus :=
          { Status := "Failure", Code := 500,
            Message := "log Line field not a string in historian query response" } }) :=
  ⟨(AlertStateQueryHandler_wrong_type_message
      { historian := mockHistorian frameWithBadSecondTime }
      (contextWithOrg 1) NewCreateAlertstatequeryRequestBody
      { OrgID := 1, UserID := 0, Login := "" } frameWithBadSecondTime 2 1
      rfl rfl rfl (by decide)
      ⟨{ Name := "Line", cells := [Cell.string "alert fired"] },
        by simp [frameWithBadSecondTime], rfl⟩
      ⟨{ Name := "Time", cells := [Cell.time testNow, Cell.string "not a time"] },
        by simp [frameWithBadSecondTime], rfl⟩
      (by
        intro i hi
        interval_cases i
        simp [rowWellTyped, frameWithBadSecondTime, Frame.At, Frame.FieldByName,
          fieldByNameFrom])).1
      (Cell.string "not a time")
      (by simp [frameWithBadSecondTime, Frame.At, Frame.FieldByName, fieldByNameFrom])
      rfl,
    (AlertStateQueryHandler_wrong_type_message
      { historian := mockHistorian frameWithBadSecondLine }
      (contextWithOrg 1) NewCreateAlertstatequeryRequestBody
      { OrgID := 1, UserID := 0, Login := "" } frameWithBadSecondLine 3 1
      rfl rfl rfl (by decide)
      ⟨{ Name := "Line", cells := [Cell.string "alert fired", Cell.float64 0x3FF0000000000000] },
        by simp [frameWithBadSecondLine], rfl⟩
      ⟨{ Name := "Time",
         cells := [Cell.time testNow, Cell.time testNowPlusSecond, Cell.time testNowPlusSecond] },
        by simp [frameWithBadSecondLine], rfl⟩
      (by
        intro i hi
        interval_cases i
        simp [rowWellTyped, frameWithBadSecondLine, Frame.At, Frame.FieldByName,
          fieldByNameFrom])).2
      testNowPlusSecond (Cell.float64 0x3FF0000000000000)
      (by simp [frameWithBadSecondLine, Frame.At, Frame.FieldByName, fieldByNameFrom])
      (by simp [frameWithBadSecondLine, Frame.At, Frame.FieldByName, fieldByNameFrom])
      rfl⟩

/-- Counterexample to C13 as stated: `frameWithShortTime` is not empty and has
both columns; row 0 is well typed and the Line cell of row 1 is a float, so row
1 is the smallest row with a malformed cell. The handler returns neither of the
two status errors: the Time column has no cell in row 1, reading it is out of
range and the handler panics. -/
theorem AlertStateQueryHandler_wrong_type_message_counterexample :
    frameWithShortTime.Rows = 2 ∧
    (∃ field ∈ frameWithShortTime.Fields, field.Name = "Line") ∧
    (∃ field ∈ frameWithShortTime.Fields, field.Name = "Time") ∧
    rowWellTyped frameWithShortTime (frameWithShortTime.FieldByName "Time").2
      (frameWithShortTime.FieldByName "Line").2 0 = true ∧
    (∃ lineCell, frameWithShortTime.At (frameWithShortTime.FieldByName "Line").2 1 =
      some lineCell ∧ lineCell.asString = none) ∧
    (handlers.AlertStateQueryHandler { historian := mockHistorian frameWithShortTime }
      (contextWithOrg 1) NewCreateAlertstatequeryRequestBody).result = none ∧
    ¬ ∃ resp err,
      (handlers.AlertStateQueryHandler { historian := mockHistorian frameWithShortTime }
        (contextWithOrg 1) NewCreateAlertstatequeryRequestBody).result =
          some (resp, some err) := by
  have hres : (handlers.AlertStateQueryHandler { historian := mockHistorian frameWithShortTime }
      (contextWithOrg 1) NewCreateAlertstatequeryRequestBody).result = none := by
    simp [handlers.AlertStateQueryHandler, GetRequester, contextWithOrg, mockHistorian,
      project, frameWithShortTime, Frame.Rows, Field.Len, Frame.FieldByName, fieldByNameFrom,
      projectRows, Frame.At, Cell.asTime, Cell.asString]
  refine ⟨by decide, ?_, ?_, ?_, ?_, hres, ?_⟩
  · exact ⟨{ Name := "Line",
             cells := [Cell.string "alert fired", Cell.float64 0x3FF0000000000000] },
      by simp [frameWithShortTime], rfl⟩
  · exact ⟨{ Name := "Time", cells := [Cell.time testNow] }, by simp [frameWithShortTime], rfl⟩
  · simp [rowWellTyped, frameWithShortTime, Frame.At, Frame.FieldByName, fieldByNameFrom]
  · exact ⟨Cell.float64 0x3FF0000000000000,
      by simp [frameWithShortTime, Frame.At, Frame.FieldByName, fieldByNameFrom], rfl⟩
  · rw [hres]
    simp

/-! ## Exact characterisation of the outcomes -/

theorem project_outcomes (frame : Frame) :
    ((∃ resp, project frame = some (resp, none)) ↔
      (frame.Rows = 0 ∨
        ((∃ field ∈ frame.Fields, field.Name = "Line") ∧
          (∃ field ∈ frame.Fields, field.Name = "Time") ∧
          ∀ i : Nat, (i : Int) < frame.Rows →
            rowWellTyped frame (frame.FieldByName "Time").2 (frame.FieldByName "Line").2
              (i : Int) = true))) ∧
    (project frame = none ↔
      ((∃ field ∈ frame.Fields, field.Name = "Line") ∧
        (∃ field ∈ frame.Fields, field.Name = "Time") ∧
        ∃ k : Nat, (k : Int) < frame.Rows ∧
          (∀ i : Nat, i < k →
            rowWellTyped frame (frame.FieldByName "Time").2 (frame.FieldByName "Line").2
              (i : Int) = true) ∧
          rowPanics frame (frame.FieldByName "Time").2 (frame.FieldByName "Line").2
            (k : Int) = true)) ∧
    (∀ resp err, project frame = some (resp, some err) →
      resp = { Entries := none } ∧ err.ErrStatus.Code = 500) := by
  have hnonneg := Rows_nonneg frame
  by_cases hrows : frame.Rows ≤ 0
  · rw [project_empty frame hrows]
    refine ⟨⟨fun _ => Or.inl (by omega), fun _ => ⟨_, rfl⟩⟩, ⟨?_, ?_⟩, ?_⟩
    · intro hnone
      simp at hnone
    · rintro ⟨_, _, k, hk, _⟩
      omega
    · intro resp err hres
      simp at hres
  · have hpos : 0 < frame.Rows := not_le.mp hrows
    by_cases hline : (frame.FieldByName "Line").2 < 0
    · have hnoLine : ¬ ∃ field ∈ frame.Fields, field.Name = "Line" := by
        intro hex
        have := (FieldByName_nonneg_iff frame "Line").mpr hex
        omega
      rw [project_no_line frame hpos hline]
      refine ⟨⟨?_, ?_⟩, ⟨?_, ?_⟩, ?_⟩
      · rintro ⟨resp, hresp⟩
        simp at hresp
      · rintro (h0 | ⟨hl, _⟩)
        · omega
        · exact absurd hl hnoLine
      · intro hnone
        simp at hnone
      · rintro ⟨hl, _⟩
        exact absurd hl hnoLine
      · intro resp err hres
        simp only [Option.some.injEq, Prod.mk.injEq] at hres
        exact ⟨hres.1.symm, by rw [← hres.2]; rfl⟩
    · by_cases htime : (frame.FieldByName "Time").2 < 0
      · have hnoTime : ¬ ∃ field ∈ frame.Fields, field.Name = "Time" := by
          intro hex
          have := (FieldByName_nonneg_iff frame "Time").mpr hex
          omega
        rw [project_no_time frame hpos (not_lt.mp hline) htime]
        refine ⟨⟨?_, ?_⟩, ⟨?_, ?_⟩, ?_⟩
        · rintro ⟨resp, hresp⟩
          simp at hresp
        · rintro (h0 | ⟨_, ht, _⟩)
          · omega
          · exact absurd ht hnoTime
        · intro hnone
          simp at hnone
        · rintro ⟨_, ht, _⟩
          exact absurd ht hnoTime
        · intro resp err hres
          simp only [Option.some.injEq, Prod.mk.injEq] at hres
          exact ⟨hres.1.symm, by rw [← hres.2]; rfl⟩
      · have hL := (FieldByName_nonneg_iff frame "Line").mp (not_lt.mp hline)
        have hT := (FieldByName_nonneg_iff frame "Time").mp (not_lt.mp htime)
        obtain ⟨n, hn⟩ : ∃ n : Nat, frame.Rows = (n : Int) :=
          ⟨frame.Rows.toNat, (Int.toNat_of_nonneg hnonneg).symm⟩
        rw [project_rows frame hpos (not_lt.mp hline) (not_lt.mp htime), hn, Int.toNat_ofNat]
        by_cases hall : ∀ i, i < n →
            rowWellTyped frame (frame.FieldByName "Time").2 (frame.FieldByName "Line").2
              (i : Int) = true
        · obtain ⟨resp, hresp⟩ := projectRows_good frame _ _ n 0 { Entries := some [] }
            (fun i hi => by simpa using hall i hi)
          rw [hresp]
          refine ⟨⟨fun _ => Or.inr ⟨hL, hT, fun i hi => hall i (by omega)⟩,
            fun _ => ⟨resp, rfl⟩⟩, ⟨?_, ?_⟩, ?_⟩
          · intro hnone
            simp at hnone
          · rintro ⟨_, _, k, hk, _, hpanic⟩
            have hbad := rowPanics_not_wellTyped frame _ _ _ hpanic
            rw [hall k (by omega)] at hbad
            exact absurd hbad (by simp)
          · intro resp2 err hres
            simp at hres
        · push_neg at hall
          obtain ⟨r0, hr0, hbad0⟩ := hall
          obtain ⟨k, hk, hfirst, hkbad⟩ := exists_first_false
            (fun i => rowWellTyped frame (frame.FieldByName "Time").2
              (frame.FieldByName "Line").2 (i : Int)) n r0 hr0 (by simpa using hbad0)
          have hnotall : ¬ ((n : Int) = 0 ∨
              ((∃ field ∈ frame.Fields, field.Name = "Line") ∧
                (∃ field ∈ frame.Fields, field.Name = "Time") ∧
                ∀ i : Nat, (i : Int) < (n : Int) →
                  rowWellTyped frame (frame.FieldByName "Time").2
                    (frame.FieldByName "Line").2 (i : Int) = true)) := by
            rintro (h0 | ⟨_, _, hgood⟩)
            · omega
            · have := hgood k (by omega)
              simp only [this] at hkbad
              exact absurd hkbad (by simp)
          have huniq : ∀ k2 : Nat, (k2 : Int) < (n : Int) →
              (∀ i : Nat, i < k2 →
                rowWellTyped frame (frame.FieldByName "Time").2 (frame.FieldByName "Line").2
                  (i : Int) = true) →
              rowPanics frame (frame.FieldByName "Time").2 (frame.FieldByName "Line").2
                (k2 : Int) = true → k2 = k := by
            intro k2 _ hfirst2 hpanic2
            have hbad2 := rowPanics_not_wellTyped frame _ _ _ hpanic2
            rcases Nat.lt_trichotomy k2 k with hlt | heq | hgt
            · have := hfirst k2 hlt
              simp only [hbad2] at this
              exact absurd this (by simp)
            · exact heq
            · have := hfirst2 k hgt
              simp only [this] at hkbad
              exact absurd hkbad (by simp)
          cases hpanic : rowPanics frame (frame.FieldByName "Time").2
              (frame.FieldByName "Line").2 (k : Int) with
          | true =>
            have hres := projectRows_at_missing frame _ _ k n 0 { Entries := some [] } hk
              (fun i hi => by simpa using hfirst i hi) (by simpa using hpanic)
            rw [hres]
            refine ⟨⟨?_, fun hok => absurd hok hnotall⟩, ⟨fun _ => ?_, fun _ => rfl⟩, ?_⟩
            · rintro ⟨resp, hresp⟩
              simp at hresp
            · exact ⟨hL, hT, k, by omega, hfirst, hpanic⟩
            · intro resp err hres2
              simp at hres2
          | false =>
            obtain ⟨err, hres, herr⟩ := projectRows_at_wrong_type frame _ _ k n
              { Entries := some [] } hk hfirst hkbad hpanic
            rw [hres]
            refine ⟨⟨?_, fun hok => absurd hok hnotall⟩, ⟨?_, ?_⟩, ?_⟩
            · rintro ⟨resp, hresp⟩
              simp at hresp
            · intro hnone
              simp at hnone
            · rintro ⟨_, _, k2, hk2, hfirst2, hpanic2⟩
              have := huniq k2 hk2 hfirst2 hpanic2
              subst this
              rw [hpanic] at hpanic2
              exact absurd hpanic2 (by simp)
            · intro resp err2 hres2
              simp only [Option.some.injEq, Prod.mk.injEq] at hres2
              refine ⟨hres2.1.symm, ?_⟩
              rw [← hres2.2]
              rcases herr with herr | herr <;> rw [herr] <;> rfl

/-- C16, as amended: the handler returns no error if and only if the context
carries a caller identity, the engine call returns a frame and no error, and
the frame either has zero rows or has both a "Line" and a "Time" column with the
Time cell a timestamp and the Line cell a string in every row. It does not
return at all (a run-time panic) if and only if there is a caller identity, the
engine returns no error, and either it returns no frame (nil), or the frame has
both columns and the loop reaches a row (all rows before it are well typed)
whose Time cell is missing, or whose Time cell is a timestamp and whose Line
cell is missing. In every other case the handler returns a status error whose
code is 401 or 500 together with a response without entries. -/
theorem AlertStateQueryHandler_success_iff (h : handlers) (ctx : Context)
    (req : CreateAlertstatequeryRequestBody) :
    ((∃ resp, (h.AlertStateQueryHandler ctx req).result = some (resp, none)) ↔
      ∃ user frame, ctx.requester = some user ∧
        h.historian.Query ctx (buildQuery user req) = (some frame, none) ∧
        (frame.Rows = 0 ∨
          ((∃ field ∈ frame.Fields, field.Name = "Line") ∧
            (∃ field ∈ frame.Fields, field.Name = "Time") ∧
            ∀ i : Nat, (i : Int) < frame.Rows →
              rowWellTyped frame (frame.FieldByName "Time").2 (frame.FieldByName "Line").2
                (i : Int) = true))) ∧
    ((h.AlertStateQueryHandler ctx req).result = none ↔
      ∃ user, ctx.requester = some user ∧
        (h.historian.Query ctx (buildQuery user req) = (none, none) ∨
          ∃ frame, h.historian.Query ctx (buildQuery user req) = (some frame, none) ∧
            (∃ field ∈ frame.Fields, field.Name = "Line") ∧
            (∃ field ∈ frame.Fields, field.Name = "Time") ∧
            ∃ k : Nat, (k : Int) < frame.Rows ∧
              (∀ i : Nat, i < k →
                rowWellTyped frame (frame.FieldByName "Time").2 (frame.FieldByName "Line").2
                  (i : Int) = true) ∧
              rowPanics frame (frame.FieldByName "Time").2 (frame.FieldByName "Line").2
                (k : Int) = true)) ∧
    ((¬ ∃ resp, (h.AlertStateQueryHandler ctx req).result = some (resp, none)) →
      (h.AlertStateQueryHandler ctx req).result ≠ none →
      ∃ err : StatusError,
        (h.AlertStateQueryHandler ctx req).result = some ({ Entries := none }, some err) ∧
        (err.ErrStatus.Code = 401 ∨ err.ErrStatus.Code = 500)) := by
  cases hctx : ctx.requester with
  | none =>
    rw [handler_unauthenticated h ctx req hctx]
    refine ⟨⟨?_, ?_⟩, ⟨?_, ?_⟩, fun _ _ => ⟨_, rfl, Or.inl rfl⟩⟩
    · rintro ⟨resp, hresp⟩
      simp at hresp
    · rintro ⟨user, frame, huser, _⟩
      simp at huser
    · intro hnone
      simp at hnone
    · rintro ⟨user, huser, _⟩
      simp at huser
  | some user =>
    have huser : ∀ user2 : Requester, some user = some user2 → user2 = user := by
      intro user2 hu
      simp only [Option.some.injEq] at hu
      exact hu.symm
    rcases engine_result_cases (h.historian.Query ctx (buildQuery user req)) with
      ⟨frame, err, hq⟩ | hq | ⟨frame, hq⟩
    · rw [handler_engine_error h ctx req user frame err hctx hq]
      refine ⟨⟨?_, ?_⟩, ⟨?_, ?_⟩, fun _ _ => ⟨_, rfl, Or.inr rfl⟩⟩
      · rintro ⟨resp, hresp⟩
        simp at hresp
      · rintro ⟨user2, frame2, hu, hquery, _⟩
        rw [huser user2 hu, hq] at hquery
        simp at hquery
      · intro hnone
        simp at hnone
      · rintro ⟨user2, hu, hquery | ⟨frame2, hquery, _⟩⟩
        · rw [huser user2 hu, hq] at hquery
          simp at hquery
        · rw [huser user2 hu, hq] at hquery
          simp at hquery
    · rw [handler_engine_nil h ctx req user hctx hq]
      refine ⟨⟨?_, ?_⟩, ⟨fun _ => ⟨user, rfl, Or.inl hq⟩, fun _ => rfl⟩,
        fun _ hne => absurd rfl hne⟩
      · rintro ⟨resp, hresp⟩
        simp at hresp
      · rintro ⟨user2, frame2, hu, hquery, _⟩
        rw [huser user2 hu, hq] at hquery
        simp at hquery
    · rw [handler_engine_ok h ctx req user frame hctx hq]
      obtain ⟨hok, hpanic, herr⟩ := project_outcomes frame
      have hframe : ∀ (user2 : Requester) (frame2 : Frame), some user = some user2 →
          h.historian.Query ctx (buildQuery user2 req) = (some frame2, none) →
          frame2 = frame := by
        intro user2 frame2 hu hquery
        rw [huser user2 hu, hq] at hquery
        simp only [Prod.mk.injEq, Option.some.injEq, and_true] at hquery
        exact hquery.symm
      refine ⟨⟨?_, ?_⟩, ⟨?_, ?_⟩, ?_⟩
      · intro hsucc
        exact ⟨user, frame, rfl, hq, hok.mp hsucc⟩
      · rintro ⟨user2, frame2, hu, hquery, hcond⟩
        have hf := hframe user2 frame2 hu hquery
        subst hf
        exact hok.mpr hcond
      · intro hnone
        exact ⟨user, rfl, Or.inr ⟨frame, hq, hpanic.mp hnone⟩⟩
      · rintro ⟨user2, hu, hquery | ⟨frame2, hquery, hcond⟩⟩
        · rw [huser user2 hu, hq] at hquery
          simp at hquery
        · have hf := hframe user2 frame2 hu hquery
          subst hf
          exact hpanic.mpr hcond
      · intro hnosucc hnopanic
        cases hres : project frame with
        | none => exact absurd hres hnopanic
        | some out =>
          obtain ⟨resp, err⟩ := out
          cases err with
          | none => exact absurd ⟨resp, hres⟩ hnosucc
          | some err =>
            obtain ⟨hresp, hcode⟩ := herr resp err hres
            exact ⟨err, by rw [hresp], Or.inr hcode⟩

/-- Witness of C16: the two-row frame of the test suite under organization 123
meets the condition of the first part, so the handler returns no error; an
engine that returns a nil frame and a nil error meets the condition of the
second part, so the handler does not return. -/
theorem AlertStateQueryHandler_success_iff_witness :
    (∃ resp, (handlers.AlertStateQueryHandler { historian := mockHistorian testFrame }
      (contextWithOrg 123) NewCreateAlertstatequeryRequestBody).result = some (resp, none)) ∧
    (handlers.AlertStateQueryHandler { historian := nilHistorian }
      (contextWithOrg 123) NewCreateAlertstatequeryRequestBody).result = none :=
  ⟨(AlertStateQueryHandler_success_iff { historian := mockHistorian testFrame }
      (contextWithOrg 123) NewCreateAlertstatequeryRequestBody).1.mpr
      ⟨{ OrgID := 123, UserID := 0, Login := "" }, testFrame, rfl, rfl, Or.inr
        ⟨⟨{ Name := "Line", cells := [Cell.string "alert fired", Cell.string "alert resolved"] },
            by simp [testFrame], rfl⟩,
          ⟨{ Name := "Time", cells := [Cell.time testNow, Cell.time testNowPlusSecond] },
            by simp [testFrame], rfl⟩,
          by
            intro i hi
            have hi2 : i < 2 := by
              simp only [testFrame, Frame.Rows, Field.Len, List.length_cons,
                List.length_nil] at hi
              omega
            interval_cases i <;>
              simp [rowWellTyped, testFrame, Frame.At, Frame.FieldByName, fieldByNameFrom]⟩⟩,
    (AlertStateQueryHandler_success_iff { historian := nilHistorian }
      (contextWithOrg 123) NewCreateAlertstatequeryRequestBody).2.1.mpr
      ⟨{ OrgID := 123, UserID := 0, Login := "" }, rfl, Or.inl rfl⟩⟩

/-- Counterexample to C16 as stated: under a caller identity, with the engine
returning `frameWithShortLine` (two timestamps, one Line cell) and no error, the
handler neither returns without error nor returns a status error: reading the
Line cell of row 1 is out of range and the handler panics. The same holds when
the engine returns a nil frame and a nil error. -/
theorem AlertStateQueryHandler_success_iff_counterexample :
    ((handlers.AlertStateQueryHandler { historian := mockHistorian frameWithShortLine }
        (contextWithOrg 1) NewCreateAlertstatequeryRequestBody).result = none ∧
      (¬ ∃ resp,
        (handlers.AlertStateQueryHandler { historian := mockHistorian frameWithShortLine }
          (contextWithOrg 1) NewCreateAlertstatequeryRequestBody).result = some (resp, none)) ∧
      ¬ ∃ resp err,
        (handlers.AlertStateQueryHandler { historian := mockHistorian frameWithShortLine }
          (contextWithOrg 1) NewCreateAlertstatequeryRequestBody).result =
            some (resp, some err)) ∧
    ((handlers.AlertStateQueryHandler { historian := nilHistorian }
        (contextWithOrg 1) NewCreateAlertstatequeryRequestBody).result = none ∧
      (¬ ∃ resp,
        (handlers.AlertStateQueryHandler { historian := nilHistorian }
          (contextWithOrg 1) NewCreateAlertstatequeryRequestBody).result = some (resp, none)) ∧
      ¬ ∃ resp err,
        (handlers.AlertStateQueryHandler { historian := nilHistorian }
          (contextWithOrg 1) NewCreateAlertstatequeryRequestBody).result =
            some (resp, some err)) := by
  have hres : (handlers.AlertStateQueryHandler { historian := mockHistorian frameWithShortLine }
      (contextWithOrg 1) NewCreateAlertstatequeryRequestBody).result = none := by
    simp [handlers.AlertStateQueryHandler, GetRequester, contextWithOrg, mockHistorian,
      project, frameWithShortLine, Frame.Rows, Field.Len, Frame.FieldByName, fieldByNameFrom,
      projectRows, Frame.At, Cell.asTime, Cell.asString]
  have hnil : (handlers.AlertStateQueryHandler { historian := nilHistorian }
      (contextWithOrg 1) NewCreateAlertstatequeryRequestBody).result = none := by
    simp [handlers.AlertStateQueryHandler, GetRequester, contextWithOrg, nilHistorian]
  refine ⟨⟨hres, ?_, ?_⟩, ⟨hnil, ?_, ?_⟩⟩
  · rw [hres]; simp
  · rw [hres]; simp
  · rw [hnil]; simp
  · rw [hnil]; simp

end historian
